import Mathlib

/-!
Verification of the batch remediation orchestrator
(`batch-orchestrator` service) against its natural-language specification.

The development shallowly embeds the Python sources:
  * `app/models/schemas.py`        — state enums, transition tables, summaries
  * `app/services/state_engine.py` — `StateEngine.transition`
  * `app/services/remediation_engine.py`
        — `is_success`, `should_skip_macd`, `_step_poll`, `remediate`
  * `app/services/batch_executor.py` / `oe_batch_executor.py`
        — `execute_batch`, `_sp_status_from_result`
  * `app/services/oe_executor.py`  — `_is_success`, `patch_oe_json`
  * `app/services/schedule_checker.py` — `is_ready`, `_is_within_window`

Dynamically-typed Python values are modelled by the `JVal` type together
with helpers reproducing Python truthiness, `str()`, `len()` and dict
lookups; operations that would raise in Python return `Except Unit`.
-/

namespace BSS

/-- A Python/JSON value as used by the orchestrator's dict-shaped data. -/
inductive JVal where
  | null
  | bool (b : Bool)
  | int (n : Int)
  | str (s : String)
  | arr (xs : List JVal)
  | obj (kvs : List (String × JVal))
deriving Repr

mutual

def JVal.beq : JVal → JVal → Bool
  | .null, .null => true
  | .bool a, .bool b => a == b
  | .int a, .int b => a == b
  | .str a, .str b => a == b
  | .arr a, .arr b => JVal.beqList a b
  | .obj a, .obj b => JVal.beqPairs a b
  | _, _ => false

def JVal.beqList : List JVal → List JVal → Bool
  | [], [] => true
  | a :: as, b :: bs => JVal.beq a b && JVal.beqList as bs
  | _, _ => false

def JVal.beqPairs : List (String × JVal) → List (String × JVal) → Bool
  | [], [] => true
  | (ka, va) :: as, (kb, vb) :: bs => ka == kb && JVal.beq va vb && JVal.beqPairs as bs
  | _, _ => false

end

instance : BEq JVal := ⟨JVal.beq⟩

mutual

theorem JVal.beq_iff : ∀ a b : JVal, JVal.beq a b = true ↔ a = b
  | .null, b => by cases b <;> simp [JVal.beq]
  | .bool x, b => by cases b <;> simp [JVal.beq]
  | .int x, b => by cases b <;> simp [JVal.beq]
  | .str x, b => by cases b <;> simp [JVal.beq]
  | .arr xs, b => by
      cases b <;> simp [JVal.beq]
      exact JVal.beqList_iff xs _
  | .obj xs, b => by
      cases b <;> simp [JVal.beq]
      exact JVal.beqPairs_iff xs _

theorem JVal.beqList_iff : ∀ a b : List JVal, JVal.beqList a b = true ↔ a = b
  | [], b => by cases b <;> simp [JVal.beqList]
  | x :: xs, b => by
      cases b with
      | nil => simp [JVal.beqList]
      | cons y ys =>
          simp [JVal.beqList, Bool.and_eq_true, JVal.beq_iff x y, JVal.beqList_iff xs ys]

theorem JVal.beqPairs_iff : ∀ a b : List (String × JVal), JVal.beqPairs a b = true ↔ a = b
  | [], b => by cases b <;> simp [JVal.beqPairs]
  | (k, v) :: xs, b => by
      cases b with
      | nil => simp [JVal.beqPairs]
      | cons y ys =>
          obtain ⟨k', v'⟩ := y
          simp only [JVal.beqPairs, Bool.and_eq_true, beq_iff_eq, JVal.beq_iff v v',
                JVal.beqPairs_iff xs ys, List.cons.injEq, Prod.mk.injEq]

end

instance : DecidableEq JVal := fun a b =>
  decidable_of_iff (JVal.beq a b = true) (JVal.beq_iff a b)

/-- Python truthiness (`bool(x)`) for the modelled values. -/
def pyTruthy : JVal → Bool
  | .null => false
  | .bool b => b
  | .int n => n != 0
  | .str s => s != ""
  | .arr xs => !xs.isEmpty
  | .obj kvs => !kvs.isEmpty

/-- `d.get(k, default)` on a Python dict (keys are unique in a dict). -/
def pyGetD (kvs : List (String × JVal)) (k : String) (d : JVal) : JVal :=
  match kvs.find? (fun p => p.1 == k) with
  | some p => p.2
  | none => d

/-- `d.get(k)` (default `None`). -/
def pyGet (kvs : List (String × JVal)) (k : String) : JVal :=
  pyGetD kvs k .null

mutual

/-- Python `repr` for the modelled values (used by `str` on containers). -/
def pyRepr : JVal → String
  | .null => "None"
  | .bool true => "True"
  | .bool false => "False"
  | .int n => toString n
  | .str s => "'" ++ s ++ "'"
  | .arr xs => "[" ++ String.intercalate ", " (pyReprList xs) ++ "]"
  | .obj kvs => "\x7b" ++ String.intercalate ", " (pyReprPairs kvs) ++ "\x7d"

/-- `repr` of each element of a Python list. -/
def pyReprList : List JVal → List String
  | [] => []
  | x :: xs => pyRepr x :: pyReprList xs

/-- `repr` of each `key: value` entry of a Python dict. -/
def pyReprPairs : List (String × JVal) → List String
  | [] => []
  | (k, v) :: xs => ("'" ++ k ++ "': " ++ pyRepr v) :: pyReprPairs xs

end

/-- Python `str()` for the modelled values. -/
def pyStr : JVal → String
  | .str s => s
  | v => pyRepr v

/-- Python `repr` of a list of strings, as produced by an f-string on
`[t.value for t in ...]`. -/
def pyStrListRepr (xs : List String) : String :=
  "[" ++ String.intercalate ", " (xs.map fun s => "'" ++ s ++ "'") ++ "]"

/-- ASCII lower-casing of one character (Python `str.lower` on the
ASCII data this system handles). -/
def pyLowerChar (c : Char) : Char :=
  if 65 ≤ c.toNat ∧ c.toNat ≤ 90 then Char.ofNat (c.toNat + 32) else c

/-- ASCII upper-casing of one character (Python `str.upper`). -/
def pyUpperChar (c : Char) : Char :=
  if 97 ≤ c.toNat ∧ c.toNat ≤ 122 then Char.ofNat (c.toNat - 32) else c

/-- Python `s.lower()` (ASCII). -/
def pyLower (s : String) : String := ⟨s.data.map pyLowerChar⟩

/-- Python `s.upper()` (ASCII). -/
def pyUpper (s : String) : String := ⟨s.data.map pyUpperChar⟩

-- =============================================================================
-- schemas.py — Solution state machine
-- =============================================================================

/-- `RemediationState` enum (schemas.py). -/
inductive RemediationState where
  | DETECTED | VALIDATING | VALIDATED
  | DELETING_SM_DATA | DELETE_FAILED
  | MIGRATING | MIGRATION_FAILED
  | WAITING_CONFIRMATION | CONFIRMED
  | POST_UPDATE | POST_UPDATE_FAILED
  | COMPLETED | SKIPPED | FAILED
deriving DecidableEq, Repr, Fintype

/-- The `.value` string of each `RemediationState` member. -/
def RemediationState.value : RemediationState → String
  | .DETECTED => "DETECTED"
  | .VALIDATING => "VALIDATING"
  | .VALIDATED => "VALIDATED"
  | .DELETING_SM_DATA => "DELETING_SM_DATA"
  | .DELETE_FAILED => "DELETE_FAILED"
  | .MIGRATING => "MIGRATING"
  | .MIGRATION_FAILED => "MIGRATION_FAILED"
  | .WAITING_CONFIRMATION => "WAITING_CONFIRMATION"
  | .CONFIRMED => "CONFIRMED"
  | .POST_UPDATE => "POST_UPDATE"
  | .POST_UPDATE_FAILED => "POST_UPDATE_FAILED"
  | .COMPLETED => "COMPLETED"
  | .SKIPPED => "SKIPPED"
  | .FAILED => "FAILED"

/-- `VALID_TRANSITIONS` table (schemas.py lines 57-89). -/
def VALID_TRANSITIONS : RemediationState → List RemediationState
  | .DETECTED => [.VALIDATING]
  | .VALIDATING => [.VALIDATED, .SKIPPED, .FAILED]
  | .VALIDATED => [.DELETING_SM_DATA]
  | .DELETING_SM_DATA => [.MIGRATING, .DELETE_FAILED]
  | .DELETE_FAILED => [.FAILED]
  | .MIGRATING => [.WAITING_CONFIRMATION, .MIGRATION_FAILED]
  | .MIGRATION_FAILED => [.FAILED]
  | .WAITING_CONFIRMATION => [.CONFIRMED, .MIGRATION_FAILED]
  | .CONFIRMED => [.POST_UPDATE]
  | .POST_UPDATE => [.COMPLETED, .POST_UPDATE_FAILED]
  | .POST_UPDATE_FAILED => [.FAILED]
  | .COMPLETED => []
  | .SKIPPED => []
  | .FAILED => []

/-- `TERMINAL_STATES` (schemas.py line 91). -/
def TERMINAL_STATES : List RemediationState := [.COMPLETED, .SKIPPED, .FAILED]

-- =============================================================================
-- state_engine.py — StateEngine
-- =============================================================================

/-- `InvalidTransitionError` carries the offending pair of states. -/
structure InvalidTransitionError where
  current : RemediationState
  target : RemediationState
deriving DecidableEq, Repr

/-- The exception message built in `InvalidTransitionError.__init__`. -/
def InvalidTransitionError.message (e : InvalidTransitionError) : String :=
  "Invalid transition: " ++ e.current.value ++ " -> " ++ e.target.value ++
    ". Valid targets: " ++ pyStrListRepr ((VALID_TRANSITIONS e.current).map RemediationState.value)

/-- The mutable fields of a `StateEngine` instance (state_engine.py).
`start_time` (wall clock) is not modelled. -/
structure StateEngine where
  solution_id : String
  solution_name : Option String := none
  current_state : RemediationState := .DETECTED
  state_history : List (String × String × String) := []
  error : Option String := none
deriving DecidableEq, Repr

/-- `StateEngine.__init__`. -/
def StateEngine.mk0 (solution_id : String) : StateEngine :=
  { solution_id := solution_id }

/-- `StateEngine.can_transition`. -/
def StateEngine.can_transition (e : StateEngine) (target : RemediationState) : Bool :=
  decide (target ∈ VALID_TRANSITIONS e.current_state)

/-- `StateEngine.transition`: returns the engine after the call together
with the outcome (`ok` new state, or the raised error).  An illegal call
raises before any mutation, so the first component is the engine unchanged. -/
def StateEngine.transition (e : StateEngine) (target : RemediationState) (reason : String) :
    StateEngine × Except InvalidTransitionError RemediationState :=
  if e.can_transition target then
    ({ e with
        state_history := e.state_history ++ [(e.current_state.value, target.value, reason)],
        current_state := target,
        error := if target = .FAILED then some reason else e.error },
     .ok target)
  else
    (e, .error ⟨e.current_state, target⟩)

/-- `StateEngine.is_terminal`. -/
def StateEngine.is_terminal (e : StateEngine) : Bool :=
  decide (e.current_state ∈ TERMINAL_STATES)

/-- A string occurs as a substring of another (via list infix). -/
def strHasSubstr (hay needle : String) : Prop :=
  needle.toList <:+: hay.toList

instance (hay needle : String) : Decidable (strHasSubstr hay needle) := by
  unfold strHasSubstr; infer_instance

-- =============================================================================
-- C1: legality of StateEngine.transition
-- =============================================================================

/-- C1. For every current state and target, `transition` succeeds iff the
target is in the legal-successors table entry for the current state
(terminal states COMPLETED/SKIPPED/FAILED having empty successor lists);
on failure it raises an invalid-transition error naming both states, and
leaves `current_state` and `state_history` unchanged. -/
theorem C1_transition_legality
    (e : StateEngine) (target : RemediationState) (reason : String) :
    ((∃ s, (e.transition target reason).2 = .ok s) ↔
        target ∈ VALID_TRANSITIONS e.current_state)
    ∧ (∀ s ∈ TERMINAL_STATES, VALID_TRANSITIONS s = [])
    ∧ (target ∉ VALID_TRANSITIONS e.current_state →
        (e.transition target reason).1 = e
        ∧ (e.transition target reason).2 = .error ⟨e.current_state, target⟩
        ∧ strHasSubstr (InvalidTransitionError.message ⟨e.current_state, target⟩)
            e.current_state.value
        ∧ strHasSubstr (InvalidTransitionError.message ⟨e.current_state, target⟩)
            target.value) := by
  refine ⟨?_, ?_, ?_⟩
  · unfold StateEngine.transition StateEngine.can_transition
    by_cases h : target ∈ VALID_TRANSITIONS e.current_state <;> simp [h]
  · intro s hs
    fin_cases hs <;> rfl
  · intro h
    unfold StateEngine.transition StateEngine.can_transition
    simp [h]
    revert h
    have : ∀ c t : RemediationState,
        strHasSubstr (InvalidTransitionError.message ⟨c, t⟩) c.value
        ∧ strHasSubstr (InvalidTransitionError.message ⟨c, t⟩) t.value := by
      decide
    exact fun _ => this e.current_state target

/-- Witness for C1 at a concrete illegal transition (COMPLETED → VALIDATING). -/
theorem C1_transition_legality_witness :
    ((StateEngine.mk0 "sol1").transition .VALIDATING "go").2 = .ok .VALIDATING
    ∧ (({ StateEngine.mk0 "sol1" with current_state := .COMPLETED }).transition
          .VALIDATING "go").1
        = { StateEngine.mk0 "sol1" with current_state := .COMPLETED } := by
  constructor
  · rfl
  · exact ((C1_transition_legality
      { StateEngine.mk0 "sol1" with current_state := .COMPLETED }
      .VALIDATING "go").2.2 (by decide)).1

-- =============================================================================
-- remediation_engine.py / oe_executor.py — success-flag normalisation
-- =============================================================================

/-- `is_success` (remediation_engine.py lines 79-84): Solution-variant
normalisation of the `success` field of a remote response. -/
def is_success (response : List (String × JVal)) : Bool :=
  match pyGetD response "success" (.str "") with
  | .bool b => b
  | v => decide (pyLower (pyStr v) ∈ ["true", "1", "yes"])

/-- `_is_success` (oe_executor.py lines 476-481): OE-variant normalisation
of the `success` field of a remote response. -/
def oe_is_success (response : List (String × JVal)) : Bool :=
  match pyGetD response "success" (.str "") with
  | .bool b => b
  | v => pyLower (pyStr v) == "true"

/-- Is the value a Python `bool`? -/
def JVal.isBoolV : JVal → Bool
  | .bool _ => true
  | _ => false

/-- Is the value a Python `dict`? -/
def JVal.isObjV : JVal → Bool
  | .obj _ => true
  | _ => false

/-- Is the value a Python `str`? -/
def JVal.isStrV : JVal → Bool
  | .str _ => true
  | _ => false

-- =============================================================================
-- C6: success-flag normalisation in the two variants
-- =============================================================================

/-- C6 counterexample. The claim says both variants treat the string "1"
(and "yes") as success; the OE variant's `_is_success` rejects "1" while
the Solution variant's `is_success` accepts it. -/
theorem C6_counterexample :
    is_success [("success", JVal.str "1")] = true
    ∧ oe_is_success [("success", JVal.str "1")] = false
    ∧ is_success [("success", JVal.str "yes")] = true
    ∧ oe_is_success [("success", JVal.str "yes")] = false := by
  decide

/-- C6 (amended). For every remote response: the Solution variant's
normalisation treats boolean values by identity and any other value as
success iff its string form lowercases to "true", "1" or "yes"; the OE
variant's normalisation treats boolean values by identity and any other
value as success iff its string form lowercases to "true" (so "1"/"yes"
are success only in the Solution variant). -/
theorem C6_success_normalisation (response : List (String × JVal)) :
    (is_success response = true ↔
      (let v := pyGetD response "success" (.str "")
       v = .bool true ∨
         (v.isBoolV = false ∧ pyLower (pyStr v) ∈ ["true", "1", "yes"])))
    ∧ (oe_is_success response = true ↔
      (let v := pyGetD response "success" (.str "")
       v = .bool true ∨ (v.isBoolV = false ∧ pyLower (pyStr v) = "true"))) := by
  unfold is_success oe_is_success
  cases h : pyGetD response "success" (.str "") <;>
    simp [JVal.isBoolV, h]

/-- Witness for C6 (amended) at a concrete response. -/
theorem C6_success_normalisation_witness :
    is_success [("success", JVal.str "YES")] = true
    ∧ oe_is_success [("success", JVal.bool true)] = true := by
  refine ⟨?_, ?_⟩
  · exact ((C6_success_normalisation [("success", JVal.str "YES")]).1).2
      (by right; exact ⟨by decide, by decide⟩)
  · exact ((C6_success_normalisation [("success", JVal.bool true)]).2).2
      (by left; decide)

-- =============================================================================
-- remediation_engine.py — should_skip_macd (MACD eligibility)
-- =============================================================================

/-- `SENSITIVE_STAGES` (remediation_engine.py line 43). -/
def SENSITIVE_STAGES : List String := ["Order Enrichment", "Submitted"]

/-- `MAX_AGE_DAYS` (remediation_engine.py line 44). -/
def MAX_AGE_DAYS : Int := 60

/-- Python `len()`; raises (`error`) on values without a length. -/
def pyLen : JVal → Except Unit Nat
  | .str s => .ok s.length
  | .arr xs => .ok xs.length
  | .obj kvs => .ok kvs.length
  | _ => .error ()

/-- The filter `b.get("basketStage") in SENSITIVE_STAGES`: raises when `b`
is not a dict (`.get` missing) or the stage is unhashable (list/dict). -/
def basketIsSensitive (b : JVal) : Except Unit Bool :=
  match b with
  | .obj kvs =>
      match pyGet kvs "basketStage" with
      | .str s => .ok (decide (s ∈ SENSITIVE_STAGES))
      | .arr _ => .error ()
      | .obj _ => .error ()
      | _ => .ok false
  | _ => .error ()

/-- `b.get("basketStage", "?")` rendered for the reason string (always a
string for baskets selected by `basketIsSensitive`). -/
def basketStageStr (b : JVal) : String :=
  match b with
  | .obj kvs => pyStr (pyGetD kvs "basketStage" (.str "?"))
  | _ => "?"

/-- The filter `(b.get("basketAgeInDays") or 0) < MAX_AGE_DAYS`: raises
when `b` is not a dict or the (truthy) age is not comparable to an int. -/
def basketIsRecent (b : JVal) : Except Unit Bool :=
  match b with
  | .obj kvs =>
      let v := pyGet kvs "basketAgeInDays"
      match (if pyTruthy v then v else .int 0) with
      | .int n => .ok (decide (n < MAX_AGE_DAYS))
      | .bool b' => .ok (decide ((if b' then (1 : Int) else 0) < MAX_AGE_DAYS))
      | _ => .error ()
  | _ => .error ()

/-- `b.get("basketAgeInDays", 0)` as used in the `min` generator. -/
def basketAgeVal (b : JVal) : JVal :=
  match b with
  | .obj kvs => pyGetD kvs "basketAgeInDays" (.int 0)
  | _ => .int 0

/-- Python `<` between two values: numeric pairs (int/bool) or two
strings compare; anything else raises. -/
def pyCmpLt (a b : JVal) : Except Unit Bool :=
  match a, b with
  | .int m, .int n => .ok (decide (m < n))
  | .int m, .bool b' => .ok (decide (m < (if b' then 1 else 0)))
  | .bool a', .int n => .ok (decide ((if a' then (1 : Int) else 0) < n))
  | .bool a', .bool b' => .ok (decide ((if a' then (1 : Nat) else 0) < (if b' then 1 else 0)))
  | .str s, .str t => .ok (decide (s < t))
  | _, _ => .error ()

/-- The running fold of Python `min`: keep the current value unless the
next element compares strictly smaller. -/
def pyMinGo (cur : JVal) : List JVal → Except Unit JVal
  | [] => .ok cur
  | y :: ys => (pyCmpLt y cur).bind fun lt => pyMinGo (if lt then y else cur) ys

/-- Python `min` over a non-empty sequence (first minimum wins);
raises on the empty sequence or incomparable elements. -/
def pyMinVals : List JVal → Except Unit JVal
  | [] => .error ()
  | x :: xs => pyMinGo x xs

/-- A Python list comprehension with a possibly-raising filter: evaluates
the condition left to right, propagating the first raised exception. -/
def pyFilterM (f : JVal → Except Unit Bool) : List JVal → Except Unit (List JVal)
  | [] => .ok []
  | x :: xs =>
      (f x).bind fun b =>
        (pyFilterM f xs).map fun rest => if b then x :: rest else rest

/-- Lines 124-141 of remediation_engine.py: the decision taken over the
normalised `basketDetails` list once a MACD is known to exist. -/
def macdBasketsDecision (baskets : List JVal) : Except Unit (Bool × String) :=
  if baskets.isEmpty then
    .ok (true, "MACD exists but no basket details available - skipping for safety")
  else
    (pyFilterM basketIsSensitive baskets).bind fun sensitive =>
      if !sensitive.isEmpty then
        .ok (true, "MACD basket in sensitive stage: " ++
          String.intercalate ", " (sensitive.map basketStageStr))
      else
        (pyFilterM basketIsRecent baskets).bind fun recent =>
          if !recent.isEmpty then
            (pyMinVals (recent.map basketAgeVal)).map fun youngest =>
              (true, "MACD basket too recent (youngest: " ++ pyStr youngest ++
                " days, threshold: " ++ toString MAX_AGE_DAYS ++ ")")
          else .ok (false, "")

/-- `should_skip_macd` (remediation_engine.py lines 87-141).  `parse`
stands for `json.loads` restricted to the modelled values (`none` =
parse error); a raised exception outside the guarded parse is `error`. -/
def should_skip_macd (parse : String → Option JVal) (info : List (String × JVal)) :
    Except Unit (Bool × String) :=
  let macd0 := pyGetD info "macdDetails" (.str "")
  if !pyTruthy macd0 then .ok (false, "")
  else
    match (match macd0 with | .str s => parse s | v => some v) with
    | none => .ok (false, "")
    | some (.obj kvs) =>
        (if pyGet kvs "macdBasketExists" == JVal.bool true then .ok true
         else (pyLen (pyGetD kvs "macdSolutionIds" (.arr []))).map (fun n => decide (n > 0))).bind
          fun macdExists =>
            if !macdExists then .ok (false, "")
            else
              let b0 := pyGet kvs "basketDetails"
              let b1 := if pyTruthy b0 then b0 else .arr []
              let baskets := match b1 with | .arr xs => xs | _ => []
              macdBasketsDecision baskets
    | some _ => .ok (false, "")

-- =============================================================================
-- C4 / C10: the MACD eligibility predicate
-- =============================================================================

/-- A typed basket for C4: optional `basketStage` string and optional
`basketAgeInDays` integer, rendered as the Python dict the code reads. -/
def mkBasket (stage : Option String) (age : Option Int) : JVal :=
  JVal.obj
    ((match stage with | some s => [("basketStage", JVal.str s)] | none => []) ++
     (match age with | some a => [("basketAgeInDays", JVal.int a)] | none => []))

/-- A typed VALIDATE-response dict for C4: `macdDetails` carrying the
basket-exists flag, the solution-id list and (optionally) basket details. -/
def mkMacdInfo (basketExists : Bool) (solutionIds : List JVal)
    (baskets : Option (List (Option String × Option Int))) : List (String × JVal) :=
  [("macdDetails", JVal.obj
      ([("macdBasketExists", JVal.bool basketExists),
        ("macdSolutionIds", JVal.arr solutionIds)] ++
       (match baskets with
        | some bs => [("basketDetails", JVal.arr (bs.map fun p => mkBasket p.1 p.2))]
        | none => [])))]

/-- Spec-side test of rule 3: the basket's stage is one of the two
sensitive stages. -/
def stageSensitiveSpec (p : Option String × Option Int) : Bool :=
  decide (p.1 = some "Order Enrichment" ∨ p.1 = some "Submitted")

/-- Spec-side test of rule 4: the basket's age in days (0 when absent)
is below the 60-day threshold. -/
def ageRecentSpec (p : Option String × Option Int) : Bool :=
  decide (p.2.getD 0 < MAX_AGE_DAYS)

/-- Rules 2-5 of the spec's MACD cascade over a typed basket list. -/
def macdSpecBaskets (bs : List (Option String × Option Int)) : Bool × String :=
  if bs = [] then
    (true, "MACD exists but no basket details available - skipping for safety")
  else
    let sens := bs.filter stageSensitiveSpec
    if sens ≠ [] then
      (true, "MACD basket in sensitive stage: " ++
        String.intercalate ", " (sens.map fun p => p.1.getD "?"))
    else
      match (bs.filter ageRecentSpec).map (fun p => p.2.getD 0) with
      | [] => (false, "")
      | y :: ys =>
          (true, "MACD basket too recent (youngest: " ++ toString (ys.foldl min y) ++
            " days, threshold: " ++ toString MAX_AGE_DAYS ++ ")")

/-- The spec's five ordered MACD rules, written out as stated:
no basket → eligible; empty/absent basket details → ineligible
(fail-safe); sensitive stage → ineligible enumerating stages; a basket
younger than 60 days → ineligible naming the youngest age and the
threshold; otherwise eligible. -/
def macdSpecDecision (basketExists : Bool) (solutionIds : List JVal)
    (baskets? : Option (List (Option String × Option Int))) : Bool × String :=
  if ¬(basketExists = true ∨ solutionIds ≠ []) then (false, "")
  else macdSpecBaskets (baskets?.getD [])

/-- Evaluating a raising filter over well-typed images gives the pure filter. -/
theorem pyFilterM_map_ok {α : Type} (g : α → JVal) (f : JVal → Except Unit Bool)
    (p : α → Bool) (h : ∀ x, f (g x) = .ok (p x)) :
    ∀ l : List α, pyFilterM f (l.map g) = .ok ((l.filter p).map g) := by
  intro l
  induction l with
  | nil => rfl
  | cons x xs ih =>
      simp only [List.map_cons, pyFilterM, h x, ih, Except.bind, Except.map, List.filter_cons]
      cases p x <;> simp

/-- Python `min` over a list of ints is the fold of `min`. -/
theorem pyMinGo_ints (c : Int) (l : List Int) :
    pyMinGo (.int c) (l.map .int) = .ok (.int (l.foldl min c)) := by
  induction l generalizing c with
  | nil => rfl
  | cons y ys ih =>
      simp only [List.map_cons, pyMinGo, pyCmpLt, Except.bind, List.foldl_cons]
      rw [show ((if decide (y < c) = true then JVal.int y else JVal.int c) : JVal)
            = JVal.int (min c y) by
        rcases lt_or_ge y c with h | h
        · rw [if_pos (by simpa using h), min_eq_right (le_of_lt h)]
        · rw [if_neg (by simpa using not_lt_of_ge h), min_eq_left h]]
      exact ih (min c y)

/-- `basketIsSensitive` on a typed basket decides the spec-side rule-3 test. -/
theorem basketIsSensitive_mk (p : Option String × Option Int) :
    basketIsSensitive (mkBasket p.1 p.2) = .ok (stageSensitiveSpec p) := by
  obtain ⟨st, a⟩ := p
  cases st <;> cases a <;>
    simp [basketIsSensitive, mkBasket, pyGet, pyGetD, stageSensitiveSpec,
      SENSITIVE_STAGES, List.find?]

/-- `basketIsRecent` on a typed basket decides the spec-side rule-4 test. -/
theorem basketIsRecent_mk (p : Option String × Option Int) :
    basketIsRecent (mkBasket p.1 p.2) = .ok (ageRecentSpec p) := by
  obtain ⟨st, a⟩ := p
  rcases a with _ | a
  · cases st <;>
      simp [basketIsRecent, mkBasket, pyGet, pyGetD, ageRecentSpec, pyTruthy,
        List.find?, MAX_AGE_DAYS]
  · rcases eq_or_ne a 0 with rfl | ha
    · cases st <;>
        simp [basketIsRecent, mkBasket, pyGet, pyGetD, ageRecentSpec, pyTruthy,
          List.find?, MAX_AGE_DAYS]
    · cases st <;>
        simp [basketIsRecent, mkBasket, pyGet, pyGetD, ageRecentSpec, pyTruthy,
          List.find?, MAX_AGE_DAYS, ha]

/-- `==` on modelled values decides equality. -/
theorem JVal.beq_eq_decide (a b : JVal) : (a == b) = decide (a = b) := by
  cases hb : (a == b)
  · have hne : ¬ a = b := by
      intro h
      subst h
      have ht := (JVal.beq_iff a a).2 rfl
      rw [show JVal.beq a a = (a == a) from rfl, hb] at ht
      exact Bool.noConfusion ht
    simp [hne]
  · have : a = b := (JVal.beq_iff a b).1 hb
    simp [this]

/-- `basketStageStr` on a typed basket is the stage (or `"?"`). -/
theorem basketStageStr_mk (p : Option String × Option Int) :
    basketStageStr (mkBasket p.1 p.2) = p.1.getD "?" := by
  obtain ⟨st, a⟩ := p
  cases st <;> cases a <;>
    simp [basketStageStr, mkBasket, pyGetD, List.find?, pyStr]

/-- `basketAgeVal` on a typed basket is the age with default 0. -/
theorem basketAgeVal_mk (p : Option String × Option Int) :
    basketAgeVal (mkBasket p.1 p.2) = .int (p.2.getD 0) := by
  obtain ⟨st, a⟩ := p
  cases st <;> cases a <;>
    simp [basketAgeVal, mkBasket, pyGetD, List.find?]

/-- `bind` over a successful `Except` applies the continuation. -/
theorem except_bind_ok {e a b : Type} (x : a) (f : a → Except e b) :
    (Except.ok x).bind f = f x := rfl

/-- `map` over a successful `Except`. -/
theorem except_map_ok {e a b : Type} (x : a) (f : a → b) :
    Except.map f (Except.ok x : Except e a) = .ok (f x) := rfl

/-- The basket decision on a typed basket list is rules 2-5 of the cascade. -/
theorem macdBasketsDecision_mk (bs : List (Option String × Option Int)) :
    macdBasketsDecision (bs.map fun p => mkBasket p.1 p.2) = .ok (macdSpecBaskets bs) := by
  have hsens := pyFilterM_map_ok (fun p : Option String × Option Int => mkBasket p.1 p.2)
    basketIsSensitive stageSensitiveSpec basketIsSensitive_mk
  have hrec := pyFilterM_map_ok (fun p : Option String × Option Int => mkBasket p.1 p.2)
    basketIsRecent ageRecentSpec basketIsRecent_mk
  have hStages : ∀ l : List (Option String × Option Int),
      (l.map fun p => mkBasket p.1 p.2).map basketStageStr = l.map fun p => p.1.getD "?" := by
    intro l
    induction l with
    | nil => rfl
    | cons x xs ih => simp [basketStageStr_mk x, ih]
  have hAges : ∀ l : List (Option String × Option Int),
      (l.map fun p => mkBasket p.1 p.2).map basketAgeVal
        = (l.map fun p => p.2.getD 0).map JVal.int := by
    intro l
    induction l with
    | nil => rfl
    | cons x xs ih => simp [basketAgeVal_mk x, ih]
  unfold macdBasketsDecision macdSpecBaskets
  by_cases hb : bs = []
  · subst hb; simp
  · rw [if_neg (by simp [List.isEmpty_iff, hb]), if_neg hb, hsens]
    rcases hfs : bs.filter stageSensitiveSpec with _ | ⟨s0, srest⟩
    · rw [except_bind_ok]
      rw [if_neg (by simp), hrec]
      rcases hfr : bs.filter ageRecentSpec with _ | ⟨r0, rrest⟩
      · rw [except_bind_ok]
        simp
      · rw [except_bind_ok, if_pos (by simp), hAges]
        simp only [List.map_cons, pyMinVals]
        rw [pyMinGo_ints, except_map_ok]
        simp [pyStr, pyRepr, MAX_AGE_DAYS]
    · rw [except_bind_ok, if_pos (by simp), hStages]
      simp [hfs]

/-- C4. On every typed VALIDATE response (basket-exists flag, solution-id
list, optional basket list with optional stage strings and integer ages),
`should_skip_macd` returns exactly the decision of the spec's five ordered
rules (`macdSpecDecision`): no basket → eligible; empty/absent
basket details → ineligible fail-safe; sensitive stage → ineligible
enumerating the stages; age < 60 → ineligible naming the youngest age and
the threshold; else eligible. -/
theorem C4_macd_rules (parse : String → Option JVal) (be : Bool) (ids : List JVal)
    (baskets? : Option (List (Option String × Option Int))) :
    should_skip_macd parse (mkMacdInfo be ids baskets?) =
      .ok (macdSpecDecision be ids baskets?) := by
  have hinner := macdBasketsDecision_mk
  rcases baskets? with _ | bs
  · unfold should_skip_macd mkMacdInfo macdSpecDecision
    have h0 : macdBasketsDecision [] =
        .ok (true, "MACD exists but no basket details available - skipping for safety") := rfl
    cases be <;>
      simp [pyGetD, pyGet, List.find?, pyTruthy, JVal.beq_eq_decide, Except.bind,
        Except.map, pyLen, List.length_pos, h0, macdSpecBaskets] <;>
      by_cases hid : ids = [] <;>
      simp [hid]
  · unfold should_skip_macd mkMacdInfo macdSpecDecision
    by_cases hbe : bs = []
    · subst hbe
      have h0 : macdBasketsDecision [] =
          .ok (true, "MACD exists but no basket details available - skipping for safety") := rfl
      cases be <;>
        simp [pyGetD, pyGet, List.find?, pyTruthy, JVal.beq_eq_decide, Except.bind,
          Except.map, pyLen, List.length_pos, h0, macdSpecBaskets] <;>
        by_cases hid : ids = [] <;>
        simp [hid]
    · have hne : ((bs.map fun p : Option String × Option Int => mkBasket p.1 p.2).isEmpty)
          = false := by
        simp [List.isEmpty_iff, hbe]
      cases be <;>
        simp [pyGetD, pyGet, List.find?, pyTruthy, JVal.beq_eq_decide, Except.bind,
          Except.map, pyLen, List.length_pos, hne, hinner bs] <;>
        by_cases hid : ids = [] <;>
        simp [hid, hinner bs]

/-- C10. For every VALIDATE response in which `macdDetails` is a string
that does not parse, or parses to (or already is) a value that is not a
dict, `should_skip_macd` returns eligible with an empty reason: malformed
MACD data is fail-open, unlike the fail-safe rule for an existing MACD
with empty basket details. -/
theorem C10_malformed_macd_fail_open (parse : String → Option JVal)
    (info : List (String × JVal)) :
    (∀ s, pyGetD info "macdDetails" (.str "") = .str s →
        (parse s = none ∨ ∃ w, parse s = some w ∧ w.isObjV = false) →
        should_skip_macd parse info = .ok (false, ""))
    ∧ (∀ v, pyGetD info "macdDetails" (.str "") = v → v.isStrV = false →
        v.isObjV = false → should_skip_macd parse info = .ok (false, "")) := by
  constructor
  · intro s hs hmal
    unfold should_skip_macd
    rw [hs]
    by_cases hempty : s = ""
    · subst hempty; simp [pyTruthy]
    · rcases hmal with h | ⟨w, hw, hnw⟩
      · simp [pyTruthy, hempty, h]
      · cases w <;> simp_all [pyTruthy, hempty, hw, JVal.isObjV]
  · intro v hv hstr hobj
    unfold should_skip_macd
    rw [hv]
    cases v <;> simp_all [pyTruthy, JVal.isStrV, JVal.isObjV]

/-- Witness for C10: a non-JSON string and a parsed non-dict value are
both treated as eligible with an empty reason. -/
theorem C10_malformed_macd_fail_open_witness :
    should_skip_macd (fun _ => none) [("macdDetails", JVal.str "not json")] = .ok (false, "")
    ∧ should_skip_macd (fun _ => some (JVal.arr [JVal.int 1]))
        [("macdDetails", JVal.str "[1]")] = .ok (false, "")
    ∧ should_skip_macd (fun _ => none) [("macdDetails", JVal.int 7)] = .ok (false, "") := by
  refine ⟨?_, ?_, ?_⟩
  · exact (C10_malformed_macd_fail_open (fun _ => none) _).1 "not json" rfl (Or.inl rfl)
  · exact (C10_malformed_macd_fail_open (fun _ => some (JVal.arr [JVal.int 1])) _).1 "[1]" rfl
      (Or.inr ⟨JVal.arr [JVal.int 1], rfl, rfl⟩)
  · exact (C10_malformed_macd_fail_open (fun _ => none) _).2 (JVal.int 7) rfl rfl rfl

-- =============================================================================
-- remediation_engine.py — result dataclasses and remediate
-- =============================================================================

/-- `SolutionResult` (schemas.py lines 107-114); wall-clock duration not
modelled. -/
structure SolutionResult where
  solution_id : String
  solution_name : Option String := none
  final_state : RemediationState
  state_history : List (String × String × String) := []
  error : Option String := none
deriving DecidableEq, Repr

/-- `StateEngine.get_result`. -/
def StateEngine.get_result (e : StateEngine) : SolutionResult :=
  { solution_id := e.solution_id
    solution_name := e.solution_name
    final_state := e.current_state
    state_history := e.state_history
    error := e.error }

/-- `StepResult` (remediation_engine.py lines 51-59); `duration_ms` (wall
clock) not modelled. -/
structure StepResult where
  action : String
  success : Bool
  message : String := ""
  job_id : JVal := .null
  status : Option String := none
deriving DecidableEq, Repr

/-- `RemediationResult` (remediation_engine.py lines 62-72);
`total_duration_ms` (wall clock) not modelled. -/
structure RemediationResult where
  solution_id : String
  success : Bool := false
  steps : List StepResult := []
  service_problem_updated : Bool := false
  failed_at : Option String := none
  message : String := ""
  solution_result : Option SolutionResult := none
deriving DecidableEq, Repr

/-- `d.get("message", default)` rendered to a string. -/
def getMsg (d : List (String × JVal)) (dflt : String) : String :=
  pyStr (pyGetD d "message" (.str dflt))

/-- The remote responses one `remediate` run consumes.  Exceptions carry
`str(e)`; the POLL step's outcome triple is the value `_step_poll`
returns. -/
structure TMFOracle where
  validate : Except String (List (String × JVal))
  delete : Except String (List (String × JVal))
  migrate : Except String (List (String × JVal))
  poll : Bool × String × String
  postUpdate : Except String Unit

/-- A recorded `update_service_problem` intent: (sp id, status,
remediation_state, reason). -/
abbrev SPCall := String × String × String × String

/-- `RemediationEngine._update_sp`: records nothing when no (truthy) SP id
was supplied; remote failures of the update itself are swallowed. -/
def spRecord (spId : Option String) (calls : List SPCall)
    (status state reason : String) : List SPCall :=
  match spId with
  | none => calls
  | some s => if s = "" then calls else calls ++ [(s, status, state, reason)]

/-- Everything observable about one `remediate` run. -/
structure RemOutcome where
  result : RemediationResult
  engine : StateEngine
  spCalls : List SPCall
deriving DecidableEq, Repr

/-- The `except InvalidTransitionError` handler of `remediate`
(remediation_engine.py lines 392-400). -/
def handleInvalid (spId : Option String) (calls : List SPCall)
    (e : InvalidTransitionError) (eng : StateEngine) (r : RemediationResult) : RemOutcome :=
  let eng := { eng with error := some e.message }
  let calls := spRecord spId calls "rejected" "FAILED" ("State error: " ++ e.message)
  ⟨{ r with failed_at := some eng.current_state.value
            message := e.message
            solution_result := some eng.get_result
            service_problem_updated := spId.isSome }, eng, calls⟩

/-- The final `except Exception` handler of `remediate`
(remediation_engine.py lines 401-412): best-effort move to FAILED. -/
def handleGeneral (spId : Option String) (calls : List SPCall)
    (msg : String) (eng : StateEngine) (r : RemediationResult) : RemOutcome :=
  let step := eng.transition .FAILED ("Unexpected error: " ++ msg)
  let eng := match step.2 with
    | .ok _ => step.1
    | .error _ => { eng with error := some msg }
  let calls := spRecord spId calls "rejected" "FAILED" msg
  ⟨{ r with failed_at := some eng.current_state.value
            message := msg
            solution_result := some eng.get_result
            service_problem_updated := spId.isSome }, eng, calls⟩

/-- Shared tail of every failure return in `remediate`. -/
def finishFail (spId : Option String) (calls : List SPCall) (eng : StateEngine)
    (r : RemediationResult) (failedAt msg : String) : RemOutcome :=
  ⟨{ r with failed_at := some failedAt
            message := msg
            solution_result := some eng.get_result
            service_problem_updated := spId.isSome }, eng, calls⟩

/-- `RemediationEngine.remediate` (remediation_engine.py lines 174-412),
driven by a `TMFOracle`; the POLL step's triple is supplied by the oracle
(see `_step_poll` for the loop itself).  Exception message text and the
swallowed `on_step` callback are not modelled beyond the strings carried
by the oracle. -/
def remediate (o : TMFOracle) (parse : String → Option JVal) (solution_id : String)
    (spId : Option String) (skip_validation : Bool) : RemOutcome :=
  let eng := StateEngine.mk0 solution_id
  let r : RemediationResult := { solution_id := solution_id }
  let calls : List SPCall := []
  -- Step 1: VALIDATE
  match eng.transition .VALIDATING "Starting validation" with
  | (eng, .error e) => handleInvalid spId calls e eng r
  | (eng, .ok _) =>
  match o.validate with
  | .error exn => handleGeneral spId calls exn eng r
  | .ok info =>
  if !is_success info then
    let msg := getMsg info "Validation failed"
    let r := { r with steps := r.steps ++ [⟨"VALIDATE", false, msg, .null, none⟩] }
    match eng.transition .FAILED msg with
    | (eng, .error e) => handleInvalid spId calls e eng r
    | (eng, .ok _) =>
      let calls := spRecord spId calls "rejected" "FAILED" "Validation failed"
      finishFail spId calls eng r "VALIDATE" msg
  else
    match (if skip_validation then Except.ok (false, "") else should_skip_macd parse info) with
    | .error _ => handleGeneral spId calls "TypeError" eng r
    | .ok (skip, skip_reason) =>
    if skip then
      let r := { r with steps := r.steps ++
        [⟨"VALIDATE", true, "Skipped: " ++ skip_reason, .null, none⟩] }
      match eng.transition .SKIPPED skip_reason with
      | (eng, .error e) => handleInvalid spId calls e eng r
      | (eng, .ok _) =>
        let calls := spRecord spId calls "rejected" "SKIPPED" skip_reason
        ⟨{ r with message := skip_reason
                  solution_result := some eng.get_result
                  service_problem_updated := spId.isSome }, eng, calls⟩
    else
    match eng.transition .VALIDATED "Eligibility confirmed" with
    | (eng, .error e) => handleInvalid spId calls e eng r
    | (eng, .ok _) =>
    let r := { r with steps := r.steps ++
      [⟨"VALIDATE", true, "Eligibility confirmed", .null, none⟩] }
    -- Step 2: DELETE
    match eng.transition .DELETING_SM_DATA "Deleting SM artifacts" with
    | (eng, .error e) => handleInvalid spId calls e eng r
    | (eng, .ok _) =>
    match o.delete with
    | .error exn =>
      let r := { r with steps := r.steps ++ [⟨"DELETE", false, exn, .null, none⟩] }
      match eng.transition .DELETE_FAILED exn with
      | (eng, .error e) => handleInvalid spId calls e eng r
      | (eng, .ok _) =>
      match eng.transition .FAILED ("Delete exception: " ++ exn) with
      | (eng, .error e) => handleInvalid spId calls e eng r
      | (eng, .ok _) =>
        let calls := spRecord spId calls "rejected" "FAILED" exn
        finishFail spId calls eng r "DELETE" exn
    | .ok delete_result =>
    if !is_success delete_result then
      let msg := getMsg delete_result "Delete failed"
      let r := { r with steps := r.steps ++ [⟨"DELETE", false, msg, .null, none⟩] }
      match eng.transition .DELETE_FAILED msg with
      | (eng, .error e) => handleInvalid spId calls e eng r
      | (eng, .ok _) =>
      match eng.transition .FAILED "Delete operation failed" with
      | (eng, .error e) => handleInvalid spId calls e eng r
      | (eng, .ok _) =>
        let calls := spRecord spId calls "rejected" "FAILED" msg
        finishFail spId calls eng r "DELETE" msg
    else
    let r := { r with steps := r.steps ++
      [⟨"DELETE", true, "SM artifacts deleted", .null, none⟩] }
    -- Step 3: MIGRATE
    match eng.transition .MIGRATING "Starting migration" with
    | (eng, .error e) => handleInvalid spId calls e eng r
    | (eng, .ok _) =>
    match o.migrate with
    | .error exn =>
      let r := { r with steps := r.steps ++ [⟨"MIGRATE", false, exn, .null, none⟩] }
      match eng.transition .MIGRATION_FAILED exn with
      | (eng, .error e) => handleInvalid spId calls e eng r
      | (eng, .ok _) =>
      match eng.transition .FAILED ("Migration exception: " ++ exn) with
      | (eng, .error e) => handleInvalid spId calls e eng r
      | (eng, .ok _) =>
        let calls := spRecord spId calls "rejected" "FAILED" exn
        finishFail spId calls eng r "MIGRATE" exn
    | .ok migrate_result =>
    let job_id := pyGet migrate_result "jobId"
    if !is_success migrate_result then
      let msg := getMsg migrate_result "Migration failed"
      let r := { r with steps := r.steps ++ [⟨"MIGRATE", false, msg, .null, none⟩] }
      match eng.transition .MIGRATION_FAILED msg with
      | (eng, .error e) => handleInvalid spId calls e eng r
      | (eng, .ok _) =>
      match eng.transition .FAILED "Migration failed" with
      | (eng, .error e) => handleInvalid spId calls e eng r
      | (eng, .ok _) =>
        let calls := spRecord spId calls "rejected" "FAILED" msg
        finishFail spId calls eng r "MIGRATE" msg
    else
    let r := { r with steps := r.steps ++
      [⟨"MIGRATE", true, "Migration started", job_id, none⟩] }
    -- Step 4: POLL
    match eng.transition .WAITING_CONFIRMATION "Polling migration status" with
    | (eng, .error e) => handleInvalid spId calls e eng r
    | (eng, .ok _) =>
    match o.poll with
    | (poll_ok, poll_status, poll_msg) =>
    if !poll_ok then
      let r := { r with steps := r.steps ++
        [⟨"POLL", false, poll_msg, .null, some poll_status⟩] }
      match eng.transition .MIGRATION_FAILED poll_msg with
      | (eng, .error e) => handleInvalid spId calls e eng r
      | (eng, .ok _) =>
      match eng.transition .FAILED ("Migration polling: " ++ poll_msg) with
      | (eng, .error e) => handleInvalid spId calls e eng r
      | (eng, .ok _) =>
        let calls := spRecord spId calls "rejected" "FAILED" poll_msg
        finishFail spId calls eng r "POLL" poll_msg
    else
    match eng.transition .CONFIRMED "Migration confirmed" with
    | (eng, .error e) => handleInvalid spId calls e eng r
    | (eng, .ok _) =>
    let r := { r with steps := r.steps ++
      [⟨"POLL", true, "Migration confirmed", .null, some "COMPLETED"⟩] }
    -- Step 5: POST_UPDATE (non-fatal)
    match eng.transition .POST_UPDATE "Running post-migration update" with
    | (eng, .error e) => handleInvalid spId calls e eng r
    | (eng, .ok _) =>
    let r := match o.postUpdate with
      | .ok _ => { r with steps := r.steps ++
          [⟨"POST_UPDATE", true, "SFDC fields updated", .null, none⟩] }
      | .error exn => { r with steps := r.steps ++
          [⟨"POST_UPDATE", false, exn, .null, none⟩] }
    -- SUCCESS
    match eng.transition .COMPLETED "Remediation completed successfully" with
    | (eng, .error e) => handleInvalid spId calls e eng r
    | (eng, .ok _) =>
    let calls := spRecord spId calls "resolved" "COMPLETED" "Remediation completed"
    ⟨{ r with success := true
              message := "Remediation completed successfully"
              service_problem_updated := spId.isSome
              solution_result := some eng.get_result }, eng, calls⟩

-- =============================================================================
-- C9: POST_UPDATE failures are non-fatal
-- =============================================================================

/-- C9. For every run whose VALIDATE, DELETE, MIGRATE and POLL steps all
succeeded, every outcome of POST_UPDATE — success, a 404-like error, or
any other failure — still ends in terminal state COMPLETED with overall
success and no `failed_at`; a POST_UPDATE failure appears only as a
step-level failure in the step list. -/
theorem C9_post_update_non_fatal (o : TMFOracle) (parse : String → Option JVal)
    (sid : String) (spId : Option String) (skipv : Bool)
    (info dres mres : List (String × JVal)) (st pmsg sr : String)
    (hv : o.validate = .ok info) (hvs : is_success info = true)
    (hns : (if skipv then Except.ok (false, "") else should_skip_macd parse info)
        = .ok (false, sr))
    (hd : o.delete = .ok dres) (hds : is_success dres = true)
    (hm : o.migrate = .ok mres) (hms : is_success mres = true)
    (hp : o.poll = (true, st, pmsg)) :
    (remediate o parse sid spId skipv).result.success = true
    ∧ (remediate o parse sid spId skipv).result.failed_at = none
    ∧ (remediate o parse sid spId skipv).engine.current_state = .COMPLETED
    ∧ (∀ sres, (remediate o parse sid spId skipv).result.solution_result = some sres →
        sres.final_state = .COMPLETED)
    ∧ (∀ exn, o.postUpdate = .error exn →
        (⟨"POST_UPDATE", false, exn, .null, none⟩ : StepResult)
          ∈ (remediate o parse sid spId skipv).result.steps)
    ∧ (∀ u, o.postUpdate = .ok u →
        (⟨"POST_UPDATE", true, "SFDC fields updated", .null, none⟩ : StepResult)
          ∈ (remediate o parse sid spId skipv).result.steps) := by
  unfold remediate
  rcases o with ⟨v, d, m, p, pu⟩
  subst hv hd hm hp
  simp only [hns]
  rcases pu with exn | u <;>
    simp [hvs, hds, hms, StateEngine.transition, StateEngine.can_transition,
      StateEngine.mk0, VALID_TRANSITIONS, StateEngine.get_result, TERMINAL_STATES]

/-- Witness for C9 at a concrete happy-path oracle whose POST_UPDATE
raises a 404-like error. -/
theorem C9_post_update_non_fatal_witness :
    (remediate
      ⟨.ok [("success", .bool true)], .ok [("success", .bool true)],
       .ok [("success", .bool true), ("jobId", .str "J1")],
       (true, "COMPLETED", ""), .error "404 Not Found"⟩
      (fun _ => none) "sol1" (some "SP1") false).result.success = true
    ∧ (remediate
      ⟨.ok [("success", .bool true)], .ok [("success", .bool true)],
       .ok [("success", .bool true), ("jobId", .str "J1")],
       (true, "COMPLETED", ""), .error "404 Not Found"⟩
      (fun _ => none) "sol1" (some "SP1") false).result.failed_at = none := by
  have h := C9_post_update_non_fatal
    ⟨.ok [("success", .bool true)], .ok [("success", .bool true)],
     .ok [("success", .bool true), ("jobId", .str "J1")],
     (true, "COMPLETED", ""), .error "404 Not Found"⟩
    (fun _ => none) "sol1" (some "SP1") false
    [("success", .bool true)] [("success", .bool true)]
    [("success", .bool true), ("jobId", .str "J1")]
    "COMPLETED" "" ""
    rfl (by decide) rfl rfl (by decide) rfl (by decide) rfl
  exact ⟨h.1, h.2.1⟩

-- =============================================================================
-- schemas.py — OE states and summaries; batch executors
-- =============================================================================

/-- `OERemediationState` enum (schemas.py lines 162-173). -/
inductive OERemediationState where
  | DETECTED | VALIDATING | VALIDATED | NOT_IMPACTED | ANALYZING
  | ATTACHMENT_UPDATED | REMEDIATION_STARTED | REMEDIATED | SKIPPED | FAILED
deriving DecidableEq, Repr, Fintype

/-- The `.value` string of each `OERemediationState` member. -/
def OERemediationState.value : OERemediationState → String
  | .DETECTED => "DETECTED"
  | .VALIDATING => "VALIDATING"
  | .VALIDATED => "VALIDATED"
  | .NOT_IMPACTED => "NOT_IMPACTED"
  | .ANALYZING => "ANALYZING"
  | .ATTACHMENT_UPDATED => "ATTACHMENT_UPDATED"
  | .REMEDIATION_STARTED => "REMEDIATION_STARTED"
  | .REMEDIATED => "REMEDIATED"
  | .SKIPPED => "SKIPPED"
  | .FAILED => "FAILED"

/-- `OE_TERMINAL_STATES` (schemas.py lines 206-211). -/
def OE_TERMINAL_STATES : List OERemediationState :=
  [.REMEDIATED, .NOT_IMPACTED, .SKIPPED, .FAILED]

/-- `OEResult` (schemas.py lines 214-223); duration not modelled. -/
structure OEResult where
  service_id : String
  service_name : Option String := none
  service_type : Option String := none
  final_state : OERemediationState
  fields_patched : List String := []
  failure_stage : Option String := none
  error : Option String := none
deriving DecidableEq, Repr

/-- `BatchJobSummary` (schemas.py lines 98-104). -/
structure BatchJobSummary where
  total : Int := 0
  successful : Int := 0
  failed : Int := 0
  skipped : Int := 0
  pending : Int := 0
deriving DecidableEq, Repr

/-- `OEBatchJobSummary` (schemas.py lines 226-233). -/
structure OEBatchJobSummary where
  total : Int := 0
  remediated : Int := 0
  not_impacted : Int := 0
  skipped : Int := 0
  failed : Int := 0
  pending : Int := 0
deriving DecidableEq, Repr

/-- The cancel flag: set asynchronously, it reads true at every check
from index `c` on (`none` = never set). -/
def cancelObserved (c? : Option Nat) (i : Nat) : Bool :=
  match c? with
  | some c => decide (c ≤ i)
  | none => false

/-- The per-item summary update of `BatchExecutor.execute_batch`
(batch_executor.py lines 127-134). -/
def sbUpdateSummary (s : BatchJobSummary) (st : RemediationState) : BatchJobSummary :=
  let s :=
    if st = .COMPLETED then { s with successful := s.successful + 1 }
    else if st = .SKIPPED then { s with skipped := s.skipped + 1 }
    else if st = .FAILED then { s with failed := s.failed + 1 }
    else s
  { s with pending := s.pending - 1 }

/-- The item loop of `BatchExecutor.execute_batch`: per-item final states
are the oracle input (what `_process_single` returned).  Returns the
summary written after each processed item, the summary after the loop,
and the number of items processed. -/
def sbLoop (cancelFrom : Option Nat) :
    List RemediationState → Nat → BatchJobSummary →
      (List BatchJobSummary × BatchJobSummary × Nat)
  | [], i, s => ([], s, i)
  | st :: rest, i, s =>
      if cancelObserved cancelFrom i then ([], s, i)
      else
        let s' := sbUpdateSummary s st
        let out := sbLoop cancelFrom rest (i + 1) s'
        (s' :: out.1, out.2)

/-- Observable effect of one `BatchExecutor.execute_batch` run on the
tracking job. -/
structure BatchRun where
  summaryWrites : List BatchJobSummary
  finalState : String
  finalSummary : BatchJobSummary
  processed : Nat
deriving DecidableEq, Repr

/-- `BatchExecutor.execute_batch` (batch_executor.py lines 82-157):
summary bookkeeping over the oracle-supplied per-item final states
(`max_count` of 0 is falsy, meaning "no limit", as in the source). -/
def BatchExecutor.execute_batch (itemStates : List RemediationState)
    (maxCount : Option Nat) (cancelFrom : Option Nat) : BatchRun :=
  let to_process := match maxCount with
    | none => itemStates
    | some m => if m = 0 then itemStates else itemStates.take m
  let s0 : BatchJobSummary :=
    { total := to_process.length, pending := to_process.length }
  let out := sbLoop cancelFrom to_process 0 s0
  let cancelled := cancelObserved cancelFrom to_process.length
  let finalState :=
    if cancelled then "cancelled"
    else if out.2.1.failed > 0 ∧ out.2.1.successful = 0 then "failed"
    else "completed"
  ⟨[s0] ++ out.1 ++ [out.2.1], finalState, out.2.1, out.2.2⟩

/-- `_sp_status_from_result` (oe_batch_executor.py lines 184-192). -/
def oe_sp_status_from_result (r : OEResult) : String :=
  if r.final_state = .REMEDIATED then "resolved"
  else if r.final_state = .NOT_IMPACTED ∨ r.final_state = .SKIPPED then "closed"
  else if r.final_state = .FAILED then "pending"
  else "inProgress"

/-- The `sp_reason` computed in oe_batch_executor.py lines 127-129
(`result.error or "Patched: ..."`). -/
def oeSpReason (r : OEResult) : String :=
  let patched :=
    if r.fields_patched.isEmpty then ""
    else "Patched: " ++ String.intercalate ", " r.fields_patched
  match r.error with
  | some e => if e = "" then patched else e
  | none => patched

/-- The per-item summary update of `OEBatchExecutor.execute_batch`
(oe_batch_executor.py lines 113-122). -/
def oeUpdateSummary (s : OEBatchJobSummary) (st : OERemediationState) : OEBatchJobSummary :=
  let s :=
    if st = .REMEDIATED then { s with remediated := s.remediated + 1 }
    else if st = .NOT_IMPACTED then { s with not_impacted := s.not_impacted + 1 }
    else if st = .SKIPPED then { s with skipped := s.skipped + 1 }
    else if st = .FAILED then { s with failed := s.failed + 1 }
    else s
  { s with pending := s.pending - 1 }

/-- The item loop of `OEBatchExecutor.execute_batch`, over entries
`(serviceId, serviceProblemId, oracle OEResult)`.  Also collects the
problem-ticket updates it issues. -/
def oeLoop (cancelFrom : Option Nat) :
    List (String × String × OEResult) → Nat → OEBatchJobSummary →
      (List OEBatchJobSummary × OEBatchJobSummary × Nat × List SPCall)
  | [], i, s => ([], s, i, [])
  | (_, spid, res) :: rest, i, s =>
      if cancelObserved cancelFrom i then ([], s, i, [])
      else
        let calls1 := spRecord (some spid) [] "inProgress" "VALIDATING" ""
        let s' := oeUpdateSummary s res.final_state
        let calls2 := spRecord (some spid) calls1
          (oe_sp_status_from_result res) res.final_state.value (oeSpReason res)
        let out := oeLoop cancelFrom rest (i + 1) s'
        (s' :: out.1, out.2.1, out.2.2.1, calls2 ++ out.2.2.2)

/-- Observable effect of one `OEBatchExecutor.execute_batch` run. -/
structure OEBatchRun where
  summaryWrites : List OEBatchJobSummary
  finalState : String
  finalSummary : OEBatchJobSummary
  processed : Nat
  spCalls : List SPCall
deriving DecidableEq, Repr

/-- `OEBatchExecutor.execute_batch` (oe_batch_executor.py lines 61-158). -/
def OEBatchExecutor.execute_batch (entries : List (String × String × OEResult))
    (maxCount : Option Nat) (cancelFrom : Option Nat) : OEBatchRun :=
  let to_process := match maxCount with
    | none => entries
    | some m => if m = 0 then entries else entries.take m
  let s0 : OEBatchJobSummary :=
    { total := to_process.length, pending := to_process.length }
  let out := oeLoop cancelFrom to_process 0 s0
  let cancelled := cancelObserved cancelFrom to_process.length
  let finalState :=
    if cancelled then "cancelled"
    else if out.2.1.failed > 0 ∧ out.2.1.remediated = 0 then "failed"
    else "completed"
  ⟨[s0] ++ out.1 ++ [out.2.1], finalState, out.2.1, out.2.2.1, out.2.2.2⟩

-- =============================================================================
-- C2: summary conservation in the batch executors
-- =============================================================================

/-- The spec's counter-conservation property for a Solution-variant
summary. -/
def sbConserved (s : BatchJobSummary) : Prop :=
  s.pending + (s.successful + s.failed + s.skipped) = s.total

/-- The spec's counter-conservation property for an OE-variant summary. -/
def oeConserved (s : OEBatchJobSummary) : Prop :=
  s.pending + (s.remediated + s.not_impacted + s.skipped + s.failed) = s.total

/-- One terminal-state summary update preserves conservation (Solution). -/
theorem sbUpdateSummary_conserved (s : BatchJobSummary) (st : RemediationState)
    (hst : st ∈ TERMINAL_STATES) (h : sbConserved s) :
    sbConserved (sbUpdateSummary s st) := by
  fin_cases hst <;>
    simp_all [sbConserved, sbUpdateSummary] <;> omega

/-- Loop invariant (Solution): all written summaries and the final
summary stay conserved, and pending tracks the processed count. -/
theorem sbLoop_spec (cancelFrom : Option Nat) (l : List RemediationState)
    (i : Nat) (s : BatchJobSummary)
    (hterm : ∀ st ∈ l, st ∈ TERMINAL_STATES) (h : sbConserved s) :
    (∀ w ∈ (sbLoop cancelFrom l i s).1, sbConserved w)
    ∧ sbConserved (sbLoop cancelFrom l i s).2.1
    ∧ (sbLoop cancelFrom l i s).2.1.pending
        = s.pending - (((sbLoop cancelFrom l i s).2.2 : Int) - (i : Int))
    ∧ i ≤ (sbLoop cancelFrom l i s).2.2 := by
  induction l generalizing i s with
  | nil => simpa [sbLoop] using h
  | cons st rest ih =>
      by_cases hc : cancelObserved cancelFrom i = true
      · simpa [sbLoop, hc] using h
      · have hst : st ∈ TERMINAL_STATES := hterm st (by simp)
        have hterm' : ∀ t ∈ rest, t ∈ TERMINAL_STATES := fun t ht => hterm t (by simp [ht])
        have h' := sbUpdateSummary_conserved s st hst h
        have hpend : (sbUpdateSummary s st).pending = s.pending - 1 := by
          fin_cases hst <;> simp [sbUpdateSummary]
        obtain ⟨ih1, ih2, ih3, ih4⟩ := ih (i + 1) (sbUpdateSummary s st) hterm' h'
        refine ⟨?_, ?_, ?_, ?_⟩ <;>
          simp only [sbLoop, hc, Bool.false_eq_true, if_false, List.mem_cons]
        · rintro w (rfl | hw)
          · exact h'
          · exact ih1 w hw
        · exact ih2
        · rw [ih3, hpend]; omega
        · omega

/-- If the cancel flag is never observed up to the end of the list, the
loop processes everything (Solution). -/
theorem sbLoop_all (cancelFrom : Option Nat) (l : List RemediationState)
    (i : Nat) (s : BatchJobSummary)
    (h : ∀ j, j < i + l.length → cancelObserved cancelFrom j = false) :
    (sbLoop cancelFrom l i s).2.2 = i + l.length := by
  induction l generalizing i s with
  | nil => simp [sbLoop]
  | cons st rest ih =>
      have hc : cancelObserved cancelFrom i = false :=
        h i (by simp only [List.length_cons]; omega)
      simp only [sbLoop, hc, Bool.false_eq_true, if_false]
      rw [ih (i + 1) (sbUpdateSummary s st)
        (fun j hj => h j (by simp only [List.length_cons]; omega))]
      simp only [List.length_cons]
      omega

/-- One terminal-state summary update preserves conservation (OE). -/
theorem oeUpdateSummary_conserved (s : OEBatchJobSummary) (st : OERemediationState)
    (hst : st ∈ OE_TERMINAL_STATES) (h : oeConserved s) :
    oeConserved (oeUpdateSummary s st) := by
  fin_cases hst <;>
    simp_all [oeConserved, oeUpdateSummary] <;> omega

/-- Loop invariant (OE). -/
theorem oeLoop_spec (cancelFrom : Option Nat) (l : List (String × String × OEResult))
    (i : Nat) (s : OEBatchJobSummary)
    (hterm : ∀ e ∈ l, e.2.2.final_state ∈ OE_TERMINAL_STATES) (h : oeConserved s) :
    (∀ w ∈ (oeLoop cancelFrom l i s).1, oeConserved w)
    ∧ oeConserved (oeLoop cancelFrom l i s).2.1
    ∧ (oeLoop cancelFrom l i s).2.1.pending
        = s.pending - (((oeLoop cancelFrom l i s).2.2.1 : Int) - (i : Int))
    ∧ i ≤ (oeLoop cancelFrom l i s).2.2.1 := by
  induction l generalizing i s with
  | nil => simpa [oeLoop] using h
  | cons e rest ih =>
      obtain ⟨sid, spid, res⟩ := e
      by_cases hc : cancelObserved cancelFrom i = true
      · simpa [oeLoop, hc] using h
      · have hst : res.final_state ∈ OE_TERMINAL_STATES :=
          hterm ⟨sid, spid, res⟩ (List.mem_cons_self _ _)
        have hterm' : ∀ t ∈ rest, t.2.2.final_state ∈ OE_TERMINAL_STATES :=
          fun t ht => hterm t (by simp [ht])
        have h' := oeUpdateSummary_conserved s res.final_state hst h
        have hpend : (oeUpdateSummary s res.final_state).pending = s.pending - 1 := by
          cases res.final_state <;> simp [oeUpdateSummary]
        obtain ⟨ih1, ih2, ih3, ih4⟩ := ih (i + 1) (oeUpdateSummary s res.final_state) hterm' h'
        refine ⟨?_, ?_, ?_, ?_⟩ <;>
          simp only [oeLoop, hc, Bool.false_eq_true, if_false, List.mem_cons]
        · rintro w (rfl | hw)
          · exact h'
          · exact ih1 w hw
        · exact ih2
        · rw [ih3, hpend]; omega
        · omega

/-- If the cancel flag is never observed up to the end of the list, the
loop processes everything (OE). -/
theorem oeLoop_all (cancelFrom : Option Nat) (l : List (String × String × OEResult))
    (i : Nat) (s : OEBatchJobSummary)
    (h : ∀ j, j < i + l.length → cancelObserved cancelFrom j = false) :
    (oeLoop cancelFrom l i s).2.2.1 = i + l.length := by
  induction l generalizing i s with
  | nil => simp [oeLoop]
  | cons e rest ih =>
      obtain ⟨sid, spid, res⟩ := e
      have hc : cancelObserved cancelFrom i = false :=
        h i (by simp only [List.length_cons]; omega)
      simp only [oeLoop, hc, Bool.false_eq_true, if_false]
      rw [ih (i + 1) (oeUpdateSummary s res.final_state)
        (fun j hj => h j (by simp only [List.length_cons]; omega))]
      simp only [List.length_cons]
      omega

/-- C2 counterexample.  (i) A per-item result carrying the non-terminal
final state VALIDATING is counted out of `pending` without entering any
terminal counter, so the conservation equation fails at the very next
summary write; (ii) a cancellation between items finalises the job as
`cancelled` with `pending` still positive. -/
theorem C2_counterexample :
    (∃ w ∈ (BatchExecutor.execute_batch [.VALIDATING] none none).summaryWrites,
        ¬ sbConserved w)
    ∧ (BatchExecutor.execute_batch [.COMPLETED, .COMPLETED] none (some 1)).finalState
        = "cancelled"
    ∧ (BatchExecutor.execute_batch [.COMPLETED, .COMPLETED] none (some 1)).finalSummary.pending
        = 1 := by
  refine ⟨?_, by decide, by decide⟩
  refine ⟨(BatchExecutor.execute_batch [.VALIDATING] none none).finalSummary, by decide, ?_⟩
  simp only [sbConserved]
  decide

/-- Monotonicity of the cancel flag reads. -/
theorem cancelObserved_mono (c? : Option Nat) (n : Nat)
    (h : cancelObserved c? n = false) : ∀ j, j < n → cancelObserved c? j = false := by
  intro j hj
  cases c? with
  | none => rfl
  | some c => simp only [cancelObserved, decide_eq_false_iff_not] at h ⊢; omega

/-- C2 (amended).  In both executors, provided every per-item result
carries a terminal final state, every tracking-job summary write during
the batch satisfies `pending + sum(terminal counters) = total`; and when
the final state written is `completed` or `failed` (i.e. not
`cancelled`), the final summary has `pending = 0`.  (A cancelled batch
keeps the unprocessed items in `pending`, and an item ending in a
non-terminal state breaks conservation — see the counterexample.) -/
theorem C2_summary_conservation
    (items : List RemediationState) (entries : List (String × String × OEResult))
    (maxCount maxCount' cancelFrom cancelFrom' : Option Nat)
    (hterm : ∀ st ∈ items, st ∈ TERMINAL_STATES)
    (hterm' : ∀ e ∈ entries, e.2.2.final_state ∈ OE_TERMINAL_STATES) :
    (∀ w ∈ (BatchExecutor.execute_batch items maxCount cancelFrom).summaryWrites,
        sbConserved w)
    ∧ ((BatchExecutor.execute_batch items maxCount cancelFrom).finalState ≠ "cancelled" →
        (BatchExecutor.execute_batch items maxCount cancelFrom).finalSummary.pending = 0)
    ∧ (∀ w ∈ (OEBatchExecutor.execute_batch entries maxCount' cancelFrom').summaryWrites,
        oeConserved w)
    ∧ ((OEBatchExecutor.execute_batch entries maxCount' cancelFrom').finalState ≠ "cancelled" →
        (OEBatchExecutor.execute_batch entries maxCount' cancelFrom').finalSummary.pending
          = 0) := by
  constructor
  · -- Solution variant: every write conserved
    unfold BatchExecutor.execute_batch
    intro w hw
    set tp := (match maxCount with
      | none => items
      | some m => if m = 0 then items else items.take m) with htp
    have htpterm : ∀ st ∈ tp, st ∈ TERMINAL_STATES := by
      intro st hst
      rcases maxCount with _ | m
      · exact hterm st hst
      · by_cases hm0 : m = 0
        · simp [htp, hm0] at hst; exact hterm st hst
        · simp [htp, hm0] at hst; exact hterm st (List.mem_of_mem_take hst)
    have h0 : sbConserved ⟨tp.length, 0, 0, 0, tp.length⟩ := by
      simp [sbConserved]
    have hspec := sbLoop_spec cancelFrom tp 0 ⟨tp.length, 0, 0, 0, tp.length⟩ htpterm h0
    simp only [List.mem_append, List.mem_singleton, List.mem_cons,
      List.not_mem_nil, or_false] at hw
    rcases hw with (rfl | hw) | rfl
    · exact h0
    · exact hspec.1 w hw
    · exact hspec.2.1
  constructor
  · -- Solution variant: not cancelled → pending 0
    unfold BatchExecutor.execute_batch
    set tp := (match maxCount with
      | none => items
      | some m => if m = 0 then items else items.take m) with htp
    have htpterm : ∀ st ∈ tp, st ∈ TERMINAL_STATES := by
      intro st hst
      rcases maxCount with _ | m
      · exact hterm st hst
      · by_cases hm0 : m = 0
        · simp [htp, hm0] at hst; exact hterm st hst
        · simp [htp, hm0] at hst; exact hterm st (List.mem_of_mem_take hst)
    have h0 : sbConserved ⟨tp.length, 0, 0, 0, tp.length⟩ := by
      simp [sbConserved]
    intro hnc
    by_cases hcan : cancelObserved cancelFrom tp.length = true
    · simp [hcan] at hnc
    · have hfalse : cancelObserved cancelFrom tp.length = false := by
        simpa using hcan
      have hall := sbLoop_all cancelFrom tp 0 ⟨tp.length, 0, 0, 0, tp.length⟩
        (fun j hj => cancelObserved_mono cancelFrom tp.length hfalse j (by omega))
      have hspec := sbLoop_spec cancelFrom tp 0 ⟨tp.length, 0, 0, 0, tp.length⟩ htpterm h0
      simp only [hall] at hspec
      have := hspec.2.2.1
      simp only at this
      simp [this]
  constructor
  · -- OE variant: every write conserved
    unfold OEBatchExecutor.execute_batch
    intro w hw
    set tp := (match maxCount' with
      | none => entries
      | some m => if m = 0 then entries else entries.take m) with htp
    have htpterm : ∀ e ∈ tp, e.2.2.final_state ∈ OE_TERMINAL_STATES := by
      intro e he
      rcases maxCount' with _ | m
      · exact hterm' e he
      · by_cases hm0 : m = 0
        · simp [htp, hm0] at he; exact hterm' e he
        · simp [htp, hm0] at he; exact hterm' e (List.mem_of_mem_take he)
    have h0 : oeConserved ⟨tp.length, 0, 0, 0, 0, tp.length⟩ := by
      simp [oeConserved]
    have hspec := oeLoop_spec cancelFrom' tp 0 ⟨tp.length, 0, 0, 0, 0, tp.length⟩ htpterm h0
    simp only [List.mem_append, List.mem_singleton, List.mem_cons,
      List.not_mem_nil, or_false] at hw
    rcases hw with (rfl | hw) | rfl
    · exact h0
    · exact hspec.1 w hw
    · exact hspec.2.1
  · -- OE variant: not cancelled → pending 0
    unfold OEBatchExecutor.execute_batch
    set tp := (match maxCount' with
      | none => entries
      | some m => if m = 0 then entries else entries.take m) with htp
    have htpterm : ∀ e ∈ tp, e.2.2.final_state ∈ OE_TERMINAL_STATES := by
      intro e he
      rcases maxCount' with _ | m
      · exact hterm' e he
      · by_cases hm0 : m = 0
        · simp [htp, hm0] at he; exact hterm' e he
        · simp [htp, hm0] at he; exact hterm' e (List.mem_of_mem_take he)
    have h0 : oeConserved ⟨tp.length, 0, 0, 0, 0, tp.length⟩ := by
      simp [oeConserved]
    intro hnc
    by_cases hcan : cancelObserved cancelFrom' tp.length = true
    · simp [hcan] at hnc
    · have hfalse : cancelObserved cancelFrom' tp.length = false := by
        simpa using hcan
      have hall := oeLoop_all cancelFrom' tp 0 ⟨tp.length, 0, 0, 0, 0, tp.length⟩
        (fun j hj => cancelObserved_mono cancelFrom' tp.length hfalse j (by omega))
      have hspec := oeLoop_spec cancelFrom' tp 0 ⟨tp.length, 0, 0, 0, 0, tp.length⟩ htpterm h0
      simp only [hall] at hspec
      have := hspec.2.2.1
      simp only at this
      simp [this]

/-- Witness for C2 (amended) at concrete terminal-only batches. -/
theorem C2_summary_conservation_witness :
    sbConserved (BatchExecutor.execute_batch [.COMPLETED, .FAILED] none none).finalSummary
    ∧ (BatchExecutor.execute_batch [.COMPLETED, .FAILED] none none).finalSummary.pending
        = 0 := by
  have h := C2_summary_conservation [.COMPLETED, .FAILED]
    [("S1", "SP1", ⟨"S1", none, none, .REMEDIATED, [], none, none⟩)]
    none none none none (by decide) (by decide)
  refine ⟨?_, h.2.1 (by decide)⟩
  exact h.1 _ (by decide)

-- =============================================================================
-- C3: problem-ticket final status mapping
-- =============================================================================

/-- The Solution variant's actual terminal-state → ticket-status map (as
the code behaves): COMPLETED → resolved, SKIPPED and FAILED → rejected. -/
def solutionSpStatus : RemediationState → String
  | .COMPLETED => "resolved"
  | .SKIPPED => "rejected"
  | .FAILED => "rejected"
  | _ => "inProgress"

/-- The spec's OE terminal-state → ticket-status map. -/
def oeSpecStatus : OERemediationState → String
  | .REMEDIATED => "resolved"
  | .NOT_IMPACTED => "closed"
  | .SKIPPED => "closed"
  | .FAILED => "pending"
  | _ => "inProgress"

/-- C3 counterexample.  A Solution item that terminates SKIPPED (here via
the MACD fail-safe rule) has its ticket updated with status `rejected`,
not `closed` as the claim states. -/
theorem C3_counterexample :
    ((remediate
        ⟨.ok [("success", .bool true),
              ("macdDetails", .obj [("macdBasketExists", .bool true)])],
         .ok [], .ok [], (true, "", ""), .ok ()⟩
        (fun _ => none) "sol1" (some "SP1") false).engine.current_state
      = RemediationState.SKIPPED)
    ∧ ((remediate
        ⟨.ok [("success", .bool true),
              ("macdDetails", .obj [("macdBasketExists", .bool true)])],
         .ok [], .ok [], (true, "", ""), .ok ()⟩
        (fun _ => none) "sol1" (some "SP1") false).spCalls
      = [("SP1", "rejected", "SKIPPED",
          "MACD exists but no basket details available - skipping for safety")])
    ∧ "rejected" ≠ "closed" := by
  refine ⟨by decide, by decide, by decide⟩

/-- C3 (amended).  For every item processed to a terminal state: in the
Solution variant the (single) problem-ticket update maps COMPLETED →
resolved and both SKIPPED and FAILED → rejected (a SKIPPED Solution item
gets `rejected`, not `closed`), recording the terminal state's name as
the remediation state; in the OE variant `_sp_status_from_result` maps
REMEDIATED → resolved, NOT_IMPACTED and SKIPPED → closed, FAILED →
pending. -/
theorem C3_sp_final_status (o : TMFOracle) (parse : String → Option JVal)
    (sid s : String) (skipv : Bool) (hs : s ≠ "") :
    (∀ sres, (remediate o parse sid (some s) skipv).result.solution_result = some sres →
        sres.final_state ∈ TERMINAL_STATES →
        ∃ reason, (remediate o parse sid (some s) skipv).spCalls.getLast?
          = some (s, solutionSpStatus sres.final_state, sres.final_state.value, reason))
    ∧ (∀ r : OEResult, oe_sp_status_from_result r = oeSpecStatus r.final_state) := by
  constructor
  · unfold remediate
    rcases o with ⟨v, d, m, ⟨pok, pst, pmsg⟩, pu⟩
    rcases v with vexn | info
    · simp [handleGeneral, StateEngine.transition, StateEngine.can_transition,
        StateEngine.mk0, VALID_TRANSITIONS, StateEngine.get_result, spRecord, hs,
        solutionSpStatus, RemediationState.value, TERMINAL_STATES]
    by_cases hvs : is_success info = true
    case neg =>
      simp [hvs, handleGeneral, finishFail, StateEngine.transition,
        StateEngine.can_transition, StateEngine.mk0, VALID_TRANSITIONS,
        StateEngine.get_result, spRecord, hs, solutionSpStatus,
        RemediationState.value, TERMINAL_STATES]
    rcases hsk : (if skipv then Except.ok (false, "")
        else should_skip_macd parse info) with serr | ⟨skip, srsn⟩
    · simp [hvs, hsk, handleGeneral, StateEngine.transition, StateEngine.can_transition,
        StateEngine.mk0, VALID_TRANSITIONS, StateEngine.get_result, spRecord, hs,
        solutionSpStatus, RemediationState.value, TERMINAL_STATES]
    by_cases hskip : skip = true
    case pos =>
      simp [hvs, hsk, hskip, StateEngine.transition, StateEngine.can_transition,
        StateEngine.mk0, VALID_TRANSITIONS, StateEngine.get_result, spRecord, hs,
        solutionSpStatus, RemediationState.value, TERMINAL_STATES]
    rcases d with dexn | dres
    · simp [hvs, hsk, hskip, handleInvalid, finishFail, StateEngine.transition,
        StateEngine.can_transition, StateEngine.mk0, VALID_TRANSITIONS,
        StateEngine.get_result, spRecord, hs, solutionSpStatus,
        RemediationState.value, TERMINAL_STATES]
    by_cases hds : is_success dres = true
    case neg =>
      simp [hvs, hsk, hskip, hds, finishFail, StateEngine.transition,
        StateEngine.can_transition, StateEngine.mk0, VALID_TRANSITIONS,
        StateEngine.get_result, spRecord, hs, solutionSpStatus,
        RemediationState.value, TERMINAL_STATES]
    rcases m with mexn | mres
    · simp [hvs, hsk, hskip, hds, finishFail, StateEngine.transition,
        StateEngine.can_transition, StateEngine.mk0, VALID_TRANSITIONS,
        StateEngine.get_result, spRecord, hs, solutionSpStatus,
        RemediationState.value, TERMINAL_STATES]
    by_cases hms : is_success mres = true
    case neg =>
      simp [hvs, hsk, hskip, hds, hms, finishFail, StateEngine.transition,
        StateEngine.can_transition, StateEngine.mk0, VALID_TRANSITIONS,
        StateEngine.get_result, spRecord, hs, solutionSpStatus,
        RemediationState.value, TERMINAL_STATES]
    by_cases hpok : pok = true
    case neg =>
      simp [hvs, hsk, hskip, hds, hms, hpok, finishFail, StateEngine.transition,
        StateEngine.can_transition, StateEngine.mk0, VALID_TRANSITIONS,
        StateEngine.get_result, spRecord, hs, solutionSpStatus,
        RemediationState.value, TERMINAL_STATES]
    rcases pu with puexn | puok <;>
      simp [hvs, hsk, hskip, hds, hms, hpok, StateEngine.transition,
        StateEngine.can_transition, StateEngine.mk0, VALID_TRANSITIONS,
        StateEngine.get_result, spRecord, hs, solutionSpStatus,
        RemediationState.value, TERMINAL_STATES]
  · intro r
    cases h : r.final_state <;>
      simp [oe_sp_status_from_result, oeSpecStatus, h]

/-- Witness for C3 (amended): a concrete failed run updates the ticket to
`rejected`/`FAILED`. -/
theorem C3_sp_final_status_witness :
    (remediate
      ⟨.ok [("success", .str "false"), ("message", .str "boom")],
       .ok [], .ok [], (true, "", ""), .ok ()⟩
      (fun _ => none) "sol1" (some "SP1") false).spCalls.getLast?
      = some ("SP1", "rejected", "FAILED", "Validation failed") := by
  have h := (C3_sp_final_status
    ⟨.ok [("success", .str "false"), ("message", .str "boom")],
     .ok [], .ok [], (true, "", ""), .ok ()⟩
    (fun _ => none) "sol1" "SP1" false (by decide)).1
    ⟨"sol1", none, .FAILED,
      [("DETECTED", "VALIDATING", "Starting validation"), ("VALIDATING", "FAILED", "boom")],
      some "boom"⟩ (by decide) (by decide)
  obtain ⟨reason, hr⟩ := h
  rw [hr]
  have : reason = "Validation failed" := by
    have := hr
    rw [show (remediate
      ⟨.ok [("success", .str "false"), ("message", .str "boom")],
       .ok [], .ok [], (true, "", ""), .ok ()⟩
      (fun _ => none) "sol1" (some "SP1") false).spCalls
      = [("SP1", "rejected", "FAILED", "Validation failed")] from by decide] at this
    simp at this
    have h2 : "Validation failed" = reason := by tauto
    exact h2.symm
  rw [this]
  rfl

-- =============================================================================
-- remediation_engine.py — _step_poll (exponential backoff polling)
-- =============================================================================

/-- The five polling parameters of `RemediationEngine.__init__`
(times in seconds, modelled as rationals). -/
structure PollConfig where
  initial_delay : ℚ := 10
  poll_interval : ℚ := 10
  max_interval : ℚ := 60
  backoff_factor : ℚ := 2
  max_duration : ℚ := 1800
deriving DecidableEq, Repr

/-- The `while elapsed < max_duration` loop of `_step_poll`
(remediation_engine.py lines 428-446), with an explicit iteration budget
(`none` = budget exhausted before the loop finished; never asserted).
`resps k` is the k-th `poll_migration_status` response (`error` = raised
transport exception, which is caught and logged).  The list accumulates
every `sleep` the step performs. -/
def stepPollLoop (cfg : PollConfig) (resps : ℕ → Except String (List (String × JVal))) :
    ℕ → ℕ → ℚ → ℚ → List ℚ → Option (Bool × String × String × List ℚ)
  | 0, _, _, _, _ => none
  | fuel + 1, k, elapsed, interval, sleeps =>
      if elapsed < cfg.max_duration then
        match resps k with
        | .ok resp =>
            match pyGetD resp "status" (.str "") with
            | .str st =>
                let poll_status := pyUpper st
                if poll_status = "COMPLETED" ∨ poll_status = "SUCCESS" then
                  some (true, "COMPLETED", "", sleeps)
                else if poll_status = "FAILED" ∨ poll_status = "ERROR" then
                  some (false, "FAILED", getMsg resp "Migration failed", sleeps)
                else
                  stepPollLoop cfg resps fuel (k + 1)
                    (elapsed + min interval cfg.max_interval)
                    (interval * cfg.backoff_factor)
                    (sleeps ++ [min interval cfg.max_interval])
            | _ =>
                stepPollLoop cfg resps fuel (k + 1)
                  (elapsed + min interval cfg.max_interval)
                  (interval * cfg.backoff_factor)
                  (sleeps ++ [min interval cfg.max_interval])
        | .error _ =>
            stepPollLoop cfg resps fuel (k + 1)
              (elapsed + min interval cfg.max_interval)
              (interval * cfg.backoff_factor)
              (sleeps ++ [min interval cfg.max_interval])
      else
        some (false, "TIMEOUT",
          "Polling timed out after " ++ toString cfg.max_duration ++ "s", sleeps)

/-- `RemediationEngine._step_poll` (remediation_engine.py lines 418-446):
sleep `initial_delay`, then run the loop with `elapsed = initial_delay`
and `current_interval = poll_interval`. -/
def step_poll (cfg : PollConfig) (resps : ℕ → Except String (List (String × JVal)))
    (fuel : ℕ) : Option (Bool × String × String × List ℚ) :=
  stepPollLoop cfg resps fuel 0 cfg.initial_delay cfg.poll_interval [cfg.initial_delay]

/-- Sleeps are only ever appended by the loop. -/
theorem stepPollLoop_sleeps_prefix (cfg : PollConfig)
    (resps : ℕ → Except String (List (String × JVal))) :
    ∀ fuel k elapsed interval sleeps out,
      stepPollLoop cfg resps fuel k elapsed interval sleeps = some out →
      sleeps <+: out.2.2.2 := by
  intro fuel
  induction fuel with
  | zero => intro k e i sleeps out h; exact absurd h (by simp [stepPollLoop])
  | succ fuel ih =>
      intro k e i sleeps out h
      rw [stepPollLoop] at h
      by_cases he : e < cfg.max_duration
      · rw [if_pos he] at h
        have hstep : ∀ (h' : stepPollLoop cfg resps fuel (k + 1)
              (e + min i cfg.max_interval) (i * cfg.backoff_factor)
              (sleeps ++ [min i cfg.max_interval]) = some out),
            sleeps <+: out.2.2.2 := fun h' =>
          List.IsPrefix.trans ⟨[min i cfg.max_interval], rfl⟩ (ih _ _ _ _ _ h')
        rcases hr : resps k with exn | resp
        · rw [hr] at h
          dsimp only at h
          exact hstep h
        · rw [hr] at h
          dsimp only at h
          rcases hst : pyGetD resp "status" (.str "") with _ | b | n | st | xs | kvs <;>
            rw [hst] at h <;> dsimp only at h <;> try exact hstep h
          by_cases h1 : pyUpper st = "COMPLETED" ∨ pyUpper st = "SUCCESS"
          · rw [if_pos h1] at h
            cases h
            exact List.prefix_refl _
          · rw [if_neg h1] at h
            by_cases h2 : pyUpper st = "FAILED" ∨ pyUpper st = "ERROR"
            · rw [if_pos h2] at h
              cases h
              exact List.prefix_refl _
            · rw [if_neg h2] at h
              exact hstep h
      · rw [if_neg he] at h
        cases h
        exact List.prefix_refl _

/-- C5. The POLL step first sleeps `initial_delay`; then each iteration
with time remaining: a COMPLETED/SUCCESS status confirms, a FAILED/ERROR
status fails with the remote message, and any other status — as well as
any transport exception, which does not terminate polling — sleeps
`min(current_interval, max_interval)` and multiplies the interval by
`backoff_factor`; once elapsed time reaches `max_duration` the step
returns the TIMEOUT failure.  In `remediate`, a failed POLL outcome is
driven MIGRATION_FAILED → FAILED with `failed_at = "POLL"`. -/
theorem C5_poll_semantics (cfg : PollConfig)
    (resps : ℕ → Except String (List (String × JVal)))
    (fuel k : ℕ) (elapsed interval : ℚ) (sleeps : List ℚ) :
    (∀ out, step_poll cfg resps fuel = some out →
        out.2.2.2.head? = some cfg.initial_delay)
    ∧ (∀ resp st, elapsed < cfg.max_duration → resps k = .ok resp →
        pyGetD resp "status" (.str "") = .str st →
        (pyUpper st = "COMPLETED" ∨ pyUpper st = "SUCCESS") →
        stepPollLoop cfg resps (fuel + 1) k elapsed interval sleeps
          = some (true, "COMPLETED", "", sleeps))
    ∧ (∀ resp st, elapsed < cfg.max_duration → resps k = .ok resp →
        pyGetD resp "status" (.str "") = .str st →
        ¬(pyUpper st = "COMPLETED" ∨ pyUpper st = "SUCCESS") →
        (pyUpper st = "FAILED" ∨ pyUpper st = "ERROR") →
        stepPollLoop cfg resps (fuel + 1) k elapsed interval sleeps
          = some (false, "FAILED", getMsg resp "Migration failed", sleeps))
    ∧ (elapsed < cfg.max_duration →
        ((∃ exn, resps k = .error exn)
          ∨ (∃ resp st, resps k = .ok resp ∧
              pyGetD resp "status" (.str "") = .str st ∧
              ¬(pyUpper st = "COMPLETED" ∨ pyUpper st = "SUCCESS") ∧
              ¬(pyUpper st = "FAILED" ∨ pyUpper st = "ERROR"))) →
        stepPollLoop cfg resps (fuel + 1) k elapsed interval sleeps
          = stepPollLoop cfg resps fuel (k + 1)
              (elapsed + min interval cfg.max_interval)
              (interval * cfg.backoff_factor)
              (sleeps ++ [min interval cfg.max_interval]))
    ∧ (¬ elapsed < cfg.max_duration →
        stepPollLoop cfg resps (fuel + 1) k elapsed interval sleeps
          = some (false, "TIMEOUT",
              "Polling timed out after " ++ toString cfg.max_duration ++ "s", sleeps))
    ∧ (∀ (o : TMFOracle) (parse : String → Option JVal) (sid : String)
          (spId : Option String) (skipv : Bool)
          (info dres mres : List (String × JVal)) (st pmsg sr : String),
        o.validate = .ok info → is_success info = true →
        (if skipv then Except.ok (false, "") else should_skip_macd parse info)
          = .ok (false, sr) →
        o.delete = .ok dres → is_success dres = true →
        o.migrate = .ok mres → is_success mres = true →
        o.poll = (false, st, pmsg) →
        (remediate o parse sid spId skipv).result.failed_at = some "POLL"
        ∧ (remediate o parse sid spId skipv).engine.current_state = .FAILED
        ∧ ("WAITING_CONFIRMATION", "MIGRATION_FAILED", pmsg)
            ∈ (remediate o parse sid spId skipv).engine.state_history
        ∧ ("MIGRATION_FAILED", "FAILED", "Migration polling: " ++ pmsg)
            ∈ (remediate o parse sid spId skipv).engine.state_history) := by
  refine ⟨?_, ?_, ?_, ?_, ?_, ?_⟩
  · intro out h
    obtain ⟨t, ht⟩ := stepPollLoop_sleeps_prefix cfg resps fuel 0
      cfg.initial_delay cfg.poll_interval [cfg.initial_delay] out h
    rw [← ht]
    rfl
  · intro resp st he hr hst h1
    rw [stepPollLoop, if_pos he, hr]
    dsimp only
    rw [hst]
    dsimp only
    simp only [if_pos h1]
  · intro resp st he hr hst h1 h2
    rw [stepPollLoop, if_pos he, hr]
    dsimp only
    rw [hst]
    dsimp only
    simp only [if_neg h1, if_pos h2]
  · intro he hcase
    rcases hcase with ⟨exn, hr⟩ | ⟨resp, st, hr, hst, h1, h2⟩
    · rw [stepPollLoop, if_pos he, hr]
    · rw [stepPollLoop, if_pos he, hr]
      dsimp only
      rw [hst]
      dsimp only
      simp only [if_neg h1, if_neg h2]
  · intro he
    rw [stepPollLoop, if_neg he]
  · intro o parse sid spId skipv info dres mres st' pmsg sr hv hvs hns hd hds hm hms hp
    unfold remediate
    rcases o with ⟨v, d, m, p, pu⟩
    simp only at hv hd hm hp
    subst hv hd hm hp
    simp only [hns]
    simp [hvs, hds, hms, StateEngine.transition, StateEngine.can_transition,
      StateEngine.mk0, VALID_TRANSITIONS, StateEngine.get_result, finishFail,
      RemediationState.value]

/-- Witness for C5, at the spec's polling-timeout scenario
(`max_duration=5`, `initial_delay=1`, `poll_interval=1`,
`backoff_factor=2`, `max_interval=10`; every poll returns IN_PROGRESS)
and at a first-poll COMPLETED scenario. -/
theorem C5_poll_semantics_witness :
    (stepPollLoop ⟨1, 1, 10, 2, 5⟩ (fun _ => .ok [("status", .str "IN_PROGRESS")])
        4 4 (8 : ℚ) 8 [1, 1, 2, 4]
      = some (false, "TIMEOUT", "Polling timed out after 5s", [1, 1, 2, 4]))
    ∧ (stepPollLoop ⟨1, 1, 10, 2, 5⟩ (fun _ => .ok [("status", .str "completed")])
        3 0 (1 : ℚ) 1 [1]
      = some (true, "COMPLETED", "", [1])) := by
  constructor
  · exact (C5_poll_semantics ⟨1, 1, 10, 2, 5⟩
      (fun _ => .ok [("status", .str "IN_PROGRESS")]) 3 4 8 8 [1, 1, 2, 4]).2.2.2.2.1
      (by norm_num)
  · exact (C5_poll_semantics ⟨1, 1, 10, 2, 5⟩
      (fun _ => .ok [("status", .str "completed")]) 2 0 1 1 [1]).2.1
      [("status", .str "completed")] "completed" (by norm_num) rfl rfl (by decide)

-- =============================================================================
-- schedule_checker.py — ScheduleChecker
-- =============================================================================

/-- A Python datetime: an instant in epoch seconds plus awareness.  For a
timezone-naive value, `epochSeconds` is the reading of its clock fields
as if they were UTC, so `replace(tzinfo=utc)` preserves it. -/
structure PyDatetime where
  epochSeconds : Int
  aware : Bool := true
deriving DecidableEq, Repr

/-- The `BatchSchedule` fields `ScheduleChecker` reads (schemas.py
lines 138-155): activation, next execution instant, the daily window as
seconds-of-day, and the timezone name. -/
structure BatchSchedule where
  is_active : Bool := true
  next_execution_date : Option PyDatetime := none
  window_start_time : Nat := 0
  window_end_time : Nat := 21600
  timezone : String := "UTC"
deriving DecidableEq, Repr

/-- `ZoneInfo(tz_name)` with the `except` fallback: an unknown name is
silently treated as UTC (offset 0).  `tzdb` maps a zone name to its
UTC offset in seconds at the instant under consideration. -/
def tzOffsetOrUTC (tzdb : String → Option Int) (name : String) : Int :=
  (tzdb name).getD 0

/-- `ScheduleChecker._is_within_window` (schedule_checker.py lines
76-107): convert now to the schedule's timezone, take the time of day,
and test the inclusive window, as a union of two intervals when it
crosses midnight. -/
def is_within_window (tzdb : String → Option Int) (now : Int)
    (start_time end_time : Nat) (tz_name : String) : Bool :=
  let off := tzOffsetOrUTC tzdb tz_name
  let current_time := ((now + off) % 86400).toNat
  if start_time ≤ end_time then
    decide (start_time ≤ current_time ∧ current_time ≤ end_time)
  else
    decide (current_time ≥ start_time ∨ current_time ≤ end_time)

/-- `ScheduleChecker.is_ready` (schedule_checker.py lines 40-74). -/
def is_ready (tzdb : String → Option Int) (now : Int) (s : BatchSchedule) : Bool :=
  if !s.is_active then false
  else
    match s.next_execution_date with
    | none => false
    | some ne =>
        let next_exec := if ne.aware then ne else { ne with aware := true }
        if next_exec.epochSeconds > now then false
        else is_within_window tzdb now s.window_start_time s.window_end_time s.timezone

/-- C7. `is_ready(schedule, now)` is true iff the schedule is active, its
next execution instant is set and ≤ now (a naive instant read as UTC),
and the time-of-day of now in the schedule's timezone (an invalid
timezone being silently UTC) lies in the inclusive window — one interval
when start ≤ end, the midnight-crossing union when start > end. -/
theorem C7_is_due (tzdb : String → Option Int) (now : Int) (s : BatchSchedule) :
    is_ready tzdb now s = true ↔
      (s.is_active = true
       ∧ ∃ ne, s.next_execution_date = some ne ∧ ne.epochSeconds ≤ now
         ∧ (let t := ((now + (tzdb s.timezone).getD 0) % 86400).toNat
            if s.window_start_time ≤ s.window_end_time
            then s.window_start_time ≤ t ∧ t ≤ s.window_end_time
            else t ≥ s.window_start_time ∨ t ≤ s.window_end_time)) := by
  unfold is_ready is_within_window tzOffsetOrUTC
  rcases s with ⟨act, ned, ws, we, tz⟩
  cases act
  · simp
  · rcases ned with _ | ne
    · simp
    · rcases ne with ⟨es, aw⟩
      cases aw <;>
        (by_cases hle : now < es
         · simp [hle, not_le.mpr hle]
         · by_cases hw : ws ≤ we <;> simp [hle, hw, not_lt.1 hle])

/-- Witness for C7 at the spec's Kuala-Lumpur scenario: active schedule,
next execution in the past, window 00:00-06:00 in a +8h zone, now 18:00
UTC (02:00 next day local). -/
theorem C7_is_due_witness :
    is_ready (fun n => if n = "Asia/Kuala_Lumpur" then some 28800 else none)
      64800
      ⟨true, some ⟨-86400, true⟩, 0, 21600, "Asia/Kuala_Lumpur"⟩ = true := by
  exact (C7_is_due (fun n => if n = "Asia/Kuala_Lumpur" then some 28800 else none)
    64800 ⟨true, some ⟨-86400, true⟩, 0, 21600, "Asia/Kuala_Lumpur"⟩).2
    ⟨rfl, ⟨-86400, true⟩, rfl, by norm_num, by norm_num⟩

-- =============================================================================
-- oe_executor.py — patch_oe_json (SET_IF_EMPTY attachment patching)
-- =============================================================================

instance {e a : Type} [DecidableEq e] [DecidableEq a] : DecidableEq (Except e a)
  | .error x, .error y =>
      if h : x = y then isTrue (by rw [h]) else isFalse (by simp [h])
  | .error _, .ok _ => isFalse (by simp)
  | .ok _, .error _ => isFalse (by simp)
  | .ok x, .ok y =>
      if h : x = y then isTrue (by rw [h]) else isFalse (by simp [h])

/-- `OE_SCHEMA_MAPPING` (oe_executor.py lines 88-93), as a total map with
Python's `.get(service_type, "")` default. -/
def OE_SCHEMA_MAPPING : String → String
  | "Voice" => "Voice OE"
  | "Fibre Service" => "Fibre Service OE"
  | "eSMS Service" => "eSMS OE"
  | "Access Service" => "Access OE"
  | _ => ""

/-- `FIELD_NAME_TO_OE` (oe_executor.py lines 101-108), with the
`.get(ui_name, ui_name)` default. -/
def FIELD_NAME_TO_OE : String → String
  | "BillingAccount" => "Billing Account"
  | "ReservedNumber" => "ReservedNumber"
  | "ResourceSystemGroupID" => "ResourceSystemGroupID"
  | "NumberStatus" => "NumberStatus"
  | "PICEmail" => "PIC Email"
  | "eSMSUserName" => "eSMS UserName"
  | s => s

/-- One patch instruction `{fieldName, value, label?}`. -/
structure PatchField where
  fieldName : String
  value : JVal
  label : Option JVal := none
deriving DecidableEq, Repr

/-- `name.lower().replace(" ", "")`. -/
def pyNormalize (s : String) : String :=
  ⟨(pyLower s).data.filter (fun c => c ≠ ' ')⟩

/-- Python `s.strip()` (ASCII whitespace). -/
def pyStrip (s : String) : String :=
  ⟨((s.data.dropWhile Char.isWhitespace).reverse.dropWhile Char.isWhitespace).reverse⟩

/-- Python dict item assignment `d[k] = v`: replace the value of an
existing key in place, otherwise append the new entry. -/
def dictSet (kvs : List (String × JVal)) (k : String) (v : JVal) : List (String × JVal) :=
  if kvs.any (fun p => p.1 == k) then
    kvs.map (fun p => if p.1 == k then (k, v) else p)
  else kvs ++ [(k, v)]

/-- The inner loop of the schema search: the first key of a schema dict
that contains the (truthy) substring. -/
def findKey (substr : String) : List (String × JVal) → Option (String × JVal)
  | [] => none
  | (name, data) :: rest =>
      if substr ≠ "" ∧ strHasSubstr name substr then some (name, data)
      else findKey substr rest

/-- The schema search of patch_oe_json (oe_executor.py lines 403-417):
first dict in `NonCommercialProduct` with a key containing the substring
bound to the service type; returns the dict, the key, and its value. -/
def findSchema (substr : String) : List JVal → Option (List (String × JVal) × String × JVal)
  | [] => none
  | x :: rest =>
      match x with
      | .obj kvs =>
          match findKey substr kvs with
          | some (name, data) => some (kvs, name, data)
          | none => findSchema substr rest
      | _ => findSchema substr rest

/-- Index construction (oe_executor.py lines 427-430): map each dict
attribute with a truthy `name` to its position (later entries override
earlier ones, as in a dict); a truthy non-string name raises at
`.lower()`. -/
def buildAttrIndex : List JVal → Nat → Except Unit (List (String × Nat))
  | [], _ => .ok []
  | a :: rest, i =>
      match a with
      | .obj akvs =>
          let nm := pyGet akvs "name"
          if pyTruthy nm then
            match nm with
            | .str s => (buildAttrIndex rest (i + 1)).map (fun ix => (pyNormalize s, i) :: ix)
            | _ => .error ()
          else buildAttrIndex rest (i + 1)
      | _ => buildAttrIndex rest (i + 1)

/-- Dict-style lookup in the index: the last binding wins. -/
def ixFind (ix : List (String × Nat)) (n : String) : Option Nat :=
  match ix.reverse.find? (fun p => p.1 == n) with
  | some p => some p.2
  | none => none

/-- The SET_IF_EMPTY field loop (oe_executor.py lines 432-459).  The
index holds positions into the attribute list (the Python dict holds
references to the same attribute dicts); appended attributes are not
indexed. -/
def applyFields (ix : List (String × Nat)) :
    List PatchField → List JVal → List String → Except Unit (List JVal × List String)
  | [], attrs, names => .ok (attrs, names)
  | f :: rest, attrs, names =>
      let oe_name := FIELD_NAME_TO_OE f.fieldName
      let new_label := f.label.getD f.value
      match ixFind ix (pyNormalize oe_name) with
      | some pos =>
          match attrs.get? pos with
          | some (.obj akvs) =>
              if pyStrip (pyStr (pyGetD akvs "value" (.str ""))) ≠ "" then
                applyFields ix rest attrs names
              else
                applyFields ix rest
                  (attrs.set pos
                    (.obj (dictSet (dictSet akvs "value" f.value) "label" new_label)))
                  (names ++ [f.fieldName])
          | _ => .error ()
      | none =>
          applyFields ix rest
            (attrs ++ [.obj [("name", .str oe_name), ("value", f.value), ("label", new_label)]])
            (names ++ [f.fieldName])

/-- The write-back loop (oe_executor.py lines 462-465): set the
`attributes` key of the first dict that has the target schema name as a
key; raises when that schema's value is not a dict. -/
def writeBack (tname : String) (attrsNew : JVal) : List JVal → Except Unit (List JVal)
  | [] => .ok []
  | x :: rest =>
      match x with
      | .obj kvs =>
          if kvs.any (fun p => p.1 == tname) then
            match pyGet kvs tname with
            | .obj inner =>
                .ok (JVal.obj (dictSet kvs tname (.obj (dictSet inner "attributes" attrsNew)))
                  :: rest)
            | _ => .error ()
          else (writeBack tname attrsNew rest).map (x :: ·)
      | _ => (writeBack tname attrsNew rest).map (x :: ·)

/-- `patch_oe_json` (oe_executor.py lines 372-468).  The deep copy makes
the transform pure; `error` stands for an uncaught Python exception. -/
def patch_oe_json (oe_json : List (String × JVal)) (fields_to_patch : List PatchField)
    (service_type : String) : Except Unit (List (String × JVal) × List String) :=
  match pyGetD oe_json "NonCommercialProduct" (.arr []) with
  | .arr (x :: xs) =>
      let ncp := x :: xs
      match findSchema (OE_SCHEMA_MAPPING service_type) ncp with
      | none => .ok (oe_json, [])
      | some (_, tname, data) =>
          match data with
          | .obj dkvs =>
              match pyGetD dkvs "attributes" (.arr []) with
              | .arr l =>
                  (buildAttrIndex l 0).bind fun ix =>
                  (applyFields ix fields_to_patch l []).bind fun res =>
                  (writeBack tname (.arr res.1) ncp).map fun ncpNew =>
                    (dictSet oe_json "NonCommercialProduct" (.arr ncpNew), res.2)
              | .str s =>
                  if fields_to_patch.isEmpty then
                    (writeBack tname (.str s) ncp).map fun ncpNew =>
                      (dictSet oe_json "NonCommercialProduct" (.arr ncpNew), [])
                  else .error ()
              | .obj okvs =>
                  if fields_to_patch.isEmpty then
                    (writeBack tname (.obj okvs) ncp).map fun ncpNew =>
                      (dictSet oe_json "NonCommercialProduct" (.arr ncpNew), [])
                  else .error ()
              | _ => .error ()
          | _ => .ok (oe_json, [])
  | _ => .ok (oe_json, [])

/-- C8 counterexample.  (i) On an attachment whose target schema lacks an
`attributes` key, `patch_oe_json(x, [])` materialises an empty attributes
list, so it does not return a deep copy of `x`; (ii) a patch instruction
with a blank value is re-applied by a second application (SET_IF_EMPTY
sees the stored blank), so the second application's patched-field list is
not empty. -/
theorem C8_counterexample :
    (patch_oe_json [("NonCommercialProduct", .arr [.obj [("Voice OE Data", .obj [])]])]
        [] "Voice"
      = .ok ([("NonCommercialProduct",
          .arr [.obj [("Voice OE Data", .obj [("attributes", .arr [])])]])], [])
     ∧ ([("NonCommercialProduct",
          .arr [.obj [("Voice OE Data", .obj [("attributes", .arr [])])]])]
           : List (String × JVal))
        ≠ [("NonCommercialProduct", .arr [.obj [("Voice OE Data", .obj [])]])])
    ∧ (patch_oe_json
        [("NonCommercialProduct", .arr [.obj [("Voice OE", .obj [("attributes", .arr [])])]])]
        [⟨"PICEmail", .str "", none⟩] "Voice"
      = .ok ([("NonCommercialProduct",
          .arr [.obj [("Voice OE", .obj [("attributes",
            .arr [.obj [("name", .str "PIC Email"), ("value", .str ""),
                        ("label", .str "")]])])]])], ["PICEmail"])
     ∧ patch_oe_json
        [("NonCommercialProduct", .arr [.obj [("Voice OE", .obj [("attributes",
            .arr [.obj [("name", .str "PIC Email"), ("value", .str ""),
                        ("label", .str "")]])])]])]
        [⟨"PICEmail", .str "", none⟩] "Voice"
      = .ok ([("NonCommercialProduct",
          .arr [.obj [("Voice OE", .obj [("attributes",
            .arr [.obj [("name", .str "PIC Email"), ("value", .str ""),
                        ("label", .str "")]])])]])], ["PICEmail"])
     ∧ (["PICEmail"] : List String) ≠ []) := by
  exact ⟨⟨by decide, by decide⟩, by decide, by decide, by decide⟩

/-- All keys of a dict are distinct (always true of a real Python dict;
the assoc-list embedding needs it stated). -/
def keysUnique : List String → Bool
  | [] => true
  | k :: rest => !(rest.contains k) && keysUnique rest

/-- A mapped key-update is the identity on pairs with other keys. -/
theorem mapSet_id (rest : List (String × JVal)) (k : String) (v : JVal)
    (h : ∀ p ∈ rest, (p.1 == k) = false) :
    rest.map (fun p => if (p.1 == k) = true then (k, v) else p) = rest := by
  induction rest with
  | nil => rfl
  | cons q qs ih =>
      have hq := h q (List.mem_cons_self q qs)
      simp only [List.map_cons]
      rw [if_neg (by simp [hq]), ih (fun p hp => h p (List.mem_cons_of_mem q hp))]

/-- `contains = false` means no key is `beq`-equal. -/
theorem keys_not_contains {l : List (String × JVal)} {k : String}
    (h : (l.map Prod.fst).contains k = false) :
    ∀ p ∈ l, (p.1 == k) = false := by
  induction l with
  | nil => simp
  | cons q rest ih =>
      simp only [List.map_cons, List.contains_cons, Bool.or_eq_false_iff] at h
      intro p hp
      rcases List.mem_cons.1 hp with rfl | hp'
      · have h1 := h.1
        simp only [beq_eq_false_iff_ne] at h1 ⊢
        exact fun he => h1 he.symm
      · exact ih h.2 p hp'

/-- Setting a key to the value it already (uniquely) holds is the
identity. -/
theorem dictSet_self (kvs : List (String × JVal)) (k : String) (v : JVal)
    (hu : keysUnique (kvs.map Prod.fst) = true)
    (hf : List.find? (fun p => p.1 == k) kvs = some (k, v)) :
    dictSet kvs k v = kvs := by
  unfold dictSet
  rw [if_pos (by
    simp only [List.any_eq_true]
    exact ⟨(k, v), List.mem_of_find?_eq_some hf, by simp⟩)]
  induction kvs with
  | nil => simp at hf
  | cons p rest ih =>
      obtain ⟨k0, v0⟩ := p
      simp only [List.map_cons, keysUnique, Bool.and_eq_true, Bool.not_eq_true'] at hu
      rcases Bool.eq_false_or_eq_true (k0 == k) with hk | hk
      · have hk' : k0 = k := by simpa using hk
        subst hk'
        have hv : v0 = v := by
          simp only [List.find?_cons] at hf
          simpa using hf
        subst hv
        simp only [List.map_cons, mapSet_id rest k0 v0 (keys_not_contains hu.1)]
        simp
      · simp only [List.find?_cons, hk] at hf
        simp only [List.map_cons, hk, Bool.false_eq_true, if_false]
        rw [ih hu.2 hf]

/-- After a mapped key-update, the first pair with that key holds the
new value. -/
theorem find?_mapSet (d : List (String × JVal)) (k : String) (v : JVal)
    (h : (d.any fun p => p.1 == k) = true) :
    List.find? (fun p => p.1 == k)
        (d.map (fun p => if (p.1 == k) = true then (k, v) else p))
      = some (k, v) := by
  induction d with
  | nil => simp at h
  | cons p rest ih =>
      rcases Bool.eq_false_or_eq_true (p.1 == k) with hp | hp
      · simp only [List.map_cons, hp, eq_self_iff_true, if_true, List.find?_cons,
          beq_self_eq_true]
      · simp only [List.any_cons, hp, Bool.false_or] at h
        simp only [List.map_cons, hp, Bool.false_eq_true, if_false, List.find?_cons]
        exact ih h

/-- Appending a fresh key and then looking it up. -/
theorem find?_append_absent (d : List (String × JVal)) (k : String) (v : JVal)
    (h : (d.any fun p => p.1 == k) = false) :
    List.find? (fun p => p.1 == k) (d ++ [(k, v)]) = some (k, v) := by
  induction d with
  | nil => simp [List.find?]
  | cons p rest ih =>
      simp only [List.any_cons, Bool.or_eq_false_iff] at h
      simp only [List.cons_append, List.find?_cons, h.1, Bool.false_eq_true, if_false]
      exact ih h.2

/-- Reading back the key just set. -/
theorem pyGetD_dictSet_same (d : List (String × JVal)) (k : String) (v dflt : JVal) :
    pyGetD (dictSet d k v) k dflt = v := by
  unfold dictSet pyGetD
  rcases Bool.eq_false_or_eq_true (d.any fun p => p.1 == k) with h | h
  · rw [if_pos h, find?_mapSet d k v h]
  · rw [if_neg (by simp [h]), find?_append_absent d k v h]

/-- A mapped key-update leaves lookups of other keys unchanged. -/
theorem find?_mapSet_ne (d : List (String × JVal)) (k k2 : String) (v : JVal)
    (hk : k2 ≠ k) :
    List.find? (fun p => p.1 == k2)
        (d.map (fun p => if (p.1 == k) = true then (k, v) else p))
      = List.find? (fun p => p.1 == k2) d := by
  induction d with
  | nil => rfl
  | cons p rest ih =>
      have h1 : (k == k2) = false := by
        simp only [beq_eq_false_iff_ne]; exact fun he => hk he.symm
      rcases Bool.eq_false_or_eq_true (p.1 == k) with hp | hp
      · have hp' : p.1 = k := by simpa using hp
        have h2 : (p.1 == k2) = false := by rw [hp']; exact h1
        simp only [List.map_cons, hp, eq_self_iff_true, if_true, List.find?_cons, h1, h2,
          Bool.false_eq_true]
        exact ih
      · simp only [List.map_cons, hp, Bool.false_eq_true, if_false, List.find?_cons]
        rcases Bool.eq_false_or_eq_true (p.1 == k2) with h2 | h2
        · simp only [h2]
        · simp only [h2, Bool.false_eq_true]
          exact ih

/-- Appending a pair with a different key does not change lookups. -/
theorem find?_append_ne (d : List (String × JVal)) (k k2 : String) (v : JVal)
    (hk : k2 ≠ k) :
    List.find? (fun p => p.1 == k2) (d ++ [(k, v)])
      = List.find? (fun p => p.1 == k2) d := by
  induction d with
  | nil =>
      have h1 : (k == k2) = false := by
        simp only [beq_eq_false_iff_ne]; exact fun he => hk he.symm
      simp only [List.nil_append, List.find?_cons, h1, Bool.false_eq_true, List.find?_nil]
  | cons p rest ih =>
      simp only [List.cons_append, List.find?_cons]
      rcases Bool.eq_false_or_eq_true (p.1 == k2) with h2 | h2
      · simp only [h2]
      · simp only [h2, Bool.false_eq_true]
        exact ih

/-- Reading another key after a set. -/
theorem pyGetD_dictSet_ne (d : List (String × JVal)) (k k2 : String) (v dflt : JVal)
    (hk : k2 ≠ k) :
    pyGetD (dictSet d k v) k2 dflt = pyGetD d k2 dflt := by
  unfold dictSet pyGetD
  rcases Bool.eq_false_or_eq_true (d.any fun p => p.1 == k) with h | h
  · rw [if_pos h, find?_mapSet_ne d k k2 v hk]
  · rw [if_neg (by simp [h]), find?_append_ne d k k2 v hk]

/-- `findKey` facts: the match is the first occurrence of its key. -/
theorem findKey_props (substr : String) (kvs : List (String × JVal))
    (tname : String) (data : JVal)
    (h : findKey substr kvs = some (tname, data)) :
    substr ≠ "" ∧ strHasSubstr tname substr
    ∧ List.find? (fun p => p.1 == tname) kvs = some (tname, data) := by
  induction kvs with
  | nil => simp [findKey] at h
  | cons p rest ih =>
      obtain ⟨k0, v0⟩ := p
      rw [findKey] at h
      by_cases hc : substr ≠ "" ∧ strHasSubstr k0 substr
      · rw [if_pos hc] at h
        simp only [Option.some.injEq, Prod.mk.injEq] at h
        obtain ⟨rfl, rfl⟩ := h
        exact ⟨hc.1, hc.2, by simp [List.find?_cons]⟩
      · rw [if_neg hc] at h
        obtain ⟨h1, h2, h3⟩ := ih h
        refine ⟨h1, h2, ?_⟩
        have : (k0 == tname) = false := by
          simp only [beq_eq_false_iff_ne]
          rintro rfl
          exact hc ⟨h1, h2⟩
        simp [List.find?_cons, this, h3]

/-- When `findKey` misses, no key matches. -/
theorem findKey_none (substr : String) (kvs : List (String × JVal))
    (h : findKey substr kvs = none) :
    ∀ p ∈ kvs, ¬(substr ≠ "" ∧ strHasSubstr p.1 substr) := by
  induction kvs with
  | nil => simp
  | cons p rest ih =>
      rw [findKey] at h
      obtain ⟨k0, v0⟩ := p
      by_cases hc : substr ≠ "" ∧ strHasSubstr k0 substr
      · rw [if_pos hc] at h; cases h
      · rw [if_neg hc] at h
        intro q hq
        rcases List.mem_cons.1 hq with rfl | hq'
        · exact hc
        · exact ih h q hq'

/-- `pyGet` after a set, same key. -/
theorem pyGet_dictSet_same (d : List (String × JVal)) (k : String) (v : JVal) :
    pyGet (dictSet d k v) k = v :=
  pyGetD_dictSet_same d k v .null

/-- `pyGet` after a set, different key. -/
theorem pyGet_dictSet_ne (d : List (String × JVal)) (k k2 : String) (v : JVal)
    (hk : k2 ≠ k) :
    pyGet (dictSet d k v) k2 = pyGet d k2 :=
  pyGetD_dictSet_ne d k k2 v .null hk

/-- The schema found by `findSchema` is the `findKey` result of its own
dict. -/
theorem findSchema_findKey (substr : String) :
    ∀ (ncp : List JVal) (kvs : List (String × JVal)) (tname : String) (data : JVal),
      findSchema substr ncp = some (kvs, tname, data)
      → findKey substr kvs = some (tname, data) := by
  intro ncp
  induction ncp with
  | nil => intro kvs tname data h; simp [findSchema] at h
  | cons x rest ih =>
      intro kvs tname data h
      cases x with
      | obj kvs0 =>
          simp only [findSchema] at h
          cases hk : findKey substr kvs0 with
          | some p =>
              obtain ⟨name, d⟩ := p
              rw [hk] at h
              dsimp only at h
              simp only [Option.some.injEq, Prod.mk.injEq] at h
              obtain ⟨rfl, rfl, rfl⟩ := h
              exact hk
          | none =>
              rw [hk] at h
              dsimp only at h
              exact ih kvs tname data h
      | null => simp only [findSchema] at h; exact ih kvs tname data h
      | bool b => simp only [findSchema] at h; exact ih kvs tname data h
      | int n => simp only [findSchema] at h; exact ih kvs tname data h
      | str s => simp only [findSchema] at h; exact ih kvs tname data h
      | arr xs => simp only [findSchema] at h; exact ih kvs tname data h

/-- Generic: `find?` over an append tries the left part first. -/
theorem find?_append_or {α : Type} (l1 l2 : List α) (p : α → Bool) :
    List.find? p (l1 ++ l2) = match List.find? p l1 with
      | some x => some x
      | none => List.find? p l2 := by
  induction l1 with
  | nil => simp [List.find?_nil]
  | cons a l1 ih =>
      simp only [List.cons_append, List.find?_cons]
      rcases Bool.eq_false_or_eq_true (p a) with h | h
      · rw [h]
      · rw [h]
        exact ih

/-- `ixFind` over an append: the right (later) part wins. -/
theorem ixFind_append (ix1 ix2 : List (String × Nat)) (n : String) :
    ixFind (ix1 ++ ix2) n = match ixFind ix2 n with
      | some p => some p
      | none => ixFind ix1 n := by
  unfold ixFind
  rw [List.reverse_append, find?_append_or]
  cases h2 : List.find? (fun p => p.1 == n) ix2.reverse with
  | none => rfl
  | some q => rfl

/-- `ixFind` on a one-entry index. -/
theorem ixFind_singleton (n0 : String) (p0 : Nat) (n : String) :
    ixFind [(n0, p0)] n = if (n0 == n) = true then some p0 else none := by
  unfold ixFind
  simp only [List.reverse_cons, List.reverse_nil, List.nil_append, List.find?]
  rcases Bool.eq_false_or_eq_true (n0 == n) with h | h <;> rw [h] <;> simp

/-- An `ixFind` hit is a member of the index. -/
theorem ixFind_mem (ix : List (String × Nat)) (n : String) (p : Nat)
    (h : ixFind ix n = some p) : (n, p) ∈ ix := by
  unfold ixFind at h
  cases hf : List.find? (fun q => q.1 == n) ix.reverse with
  | none => rw [hf] at h; cases h
  | some q =>
      rw [hf] at h
      dsimp only at h
      obtain hq2 := Option.some.inj h
      have hq := List.mem_reverse.mp (List.mem_of_find?_eq_some hf)
      have hqn : q.1 = n := by simpa using List.find?_some hf
      obtain ⟨q1, q2⟩ := q
      simp only at hqn hq2
      rw [hqn, hq2] at hq
      exact hq

/-- The index key one attribute contributes (`none` if it is skipped,
`error` if its truthy name is not a string). -/
def attrKey : JVal → Except Unit (Option String)
  | .obj akvs =>
      let nm := pyGet akvs "name"
      if pyTruthy nm then
        match nm with
        | .str s => .ok (some (pyNormalize s))
        | _ => .error ()
      else .ok none
  | _ => .ok none

/-- `buildAttrIndex` on a cons, through `attrKey`. -/
theorem buildAttrIndex_cons (a : JVal) (rest : List JVal) (i : Nat) :
    buildAttrIndex (a :: rest) i = match attrKey a with
      | .error () => .error ()
      | .ok none => buildAttrIndex rest (i + 1)
      | .ok (some nm) => (buildAttrIndex rest (i + 1)).map (fun ix => (nm, i) :: ix) := by
  cases a with
  | obj akvs =>
      simp only [buildAttrIndex, attrKey]
      rcases Bool.eq_false_or_eq_true (pyTruthy (pyGet akvs "name")) with ht | ht
      · rw [if_pos ht, if_pos ht]
        cases pyGet akvs "name" <;> rfl
      · rw [if_neg (by simp [ht]), if_neg (by simp [ht])]
  | null => rfl
  | bool b => rfl
  | int n => rfl
  | str s => rfl
  | arr xs => rfl

/-- `buildAttrIndex` distributes over append (with shifted offsets). -/
theorem buildAttrIndex_append (l1 l2 : List JVal) :
    ∀ i, buildAttrIndex (l1 ++ l2) i
      = (buildAttrIndex l1 i).bind fun ix1 =>
        (buildAttrIndex l2 (i + l1.length)).map fun ix2 => ix1 ++ ix2 := by
  induction l1 with
  | nil =>
      intro i
      simp only [List.nil_append, buildAttrIndex, List.length_nil, Nat.add_zero]
      cases buildAttrIndex l2 i with
      | error e => rfl
      | ok ix => rfl
  | cons a l1 ih =>
      intro i
      rw [List.cons_append, buildAttrIndex_cons, buildAttrIndex_cons]
      cases hk : attrKey a with
      | error e => cases e; rfl
      | ok o =>
          cases o with
          | none =>
              rw [ih (i + 1)]
              simp only [List.length_cons,
                show i + 1 + l1.length = i + (l1.length + 1) from by omega]
          | some nm =>
              rw [ih (i + 1)]
              simp only [List.length_cons,
                show i + 1 + l1.length = i + (l1.length + 1) from by omega]
              cases buildAttrIndex l1 (i + 1) with
              | error e => rfl
              | ok ix1 =>
                  cases buildAttrIndex l2 (i + (l1.length + 1)) with
                  | error e => rfl
                  | ok ix2 => rfl

/-- Replacing an attribute by one with the same `attrKey` leaves the
index unchanged. -/
theorem buildAttrIndex_set :
    ∀ (attrs : List JVal) (pos i : Nat) (a a' : JVal),
      attrs.get? pos = some a → attrKey a' = attrKey a
      → buildAttrIndex (attrs.set pos a') i = buildAttrIndex attrs i := by
  intro attrs
  induction attrs with
  | nil => intro pos i a a' h _; simp at h
  | cons b rest ih =>
      intro pos i a a' h hk
      cases pos with
      | zero =>
          simp only [List.get?_cons_zero, Option.some.injEq] at h
          subst h
          simp only [List.set]
          rw [buildAttrIndex_cons, buildAttrIndex_cons, hk]
      | succ p =>
          simp only [List.get?_cons_succ] at h
          simp only [List.set]
          rw [buildAttrIndex_cons, buildAttrIndex_cons, ih p (i + 1) a a' h hk]

/-- A truthy-string-named attribute is a dict. -/
theorem attrKey_some_obj (a : JVal) (nm : String) (h : attrKey a = .ok (some nm)) :
    ∃ akvs, a = .obj akvs := by
  cases a with
  | obj akvs => exact ⟨akvs, rfl⟩
  | null => simp [attrKey] at h
  | bool b => simp [attrKey] at h
  | int n => simp [attrKey] at h
  | str s => simp [attrKey] at h
  | arr xs => simp [attrKey] at h

/-- Every index entry points at a dict attribute at its position. -/
theorem buildAttrIndex_valid :
    ∀ (l : List JVal) (i : Nat) (ix : List (String × Nat)),
      buildAttrIndex l i = .ok ix
      → ∀ n p, (n, p) ∈ ix → i ≤ p ∧ ∃ akvs, l.get? (p - i) = some (.obj akvs) := by
  intro l
  induction l with
  | nil =>
      intro i ix h n p hm
      simp only [buildAttrIndex, Except.ok.injEq] at h
      subst h
      simp at hm
  | cons a rest ih =>
      intro i ix h n p hm
      rw [buildAttrIndex_cons] at h
      cases hk : attrKey a with
      | error e => cases e; rw [hk] at h; cases h
      | ok o =>
          rw [hk] at h
          cases o with
          | none =>
              dsimp only at h
              obtain ⟨hle, akvs, hg⟩ := ih (i + 1) ix h n p hm
              refine ⟨le_trans (Nat.le_succ i) hle, akvs, ?_⟩
              have hpi : p - i = (p - (i + 1)) + 1 := by omega
              rw [hpi, List.get?_cons_succ]
              exact hg
          | some nm =>
              dsimp only at h
              cases hb : buildAttrIndex rest (i + 1) with
              | error e => rw [hb] at h; cases h
              | ok ixr =>
                  rw [hb] at h
                  simp only [Except.map, Except.ok.injEq] at h
                  subst h
                  rcases List.mem_cons.1 hm with he | hm'
                  · obtain ⟨rfl, rfl⟩ := Prod.mk.injEq .. ▸ he
                    obtain ⟨akvs, rfl⟩ := attrKey_some_obj a n hk
                    exact ⟨Nat.le_refl p, akvs, by simp⟩
                  · obtain ⟨hle, akvs, hg⟩ := ih (i + 1) ixr hb n p hm'
                    refine ⟨le_trans (Nat.le_succ i) hle, akvs, ?_⟩
                    have hpi : p - i = (p - (i + 1)) + 1 := by omega
                    rw [hpi, List.get?_cons_succ]
                    exact hg

/-- Updating the found key's value moves through `findKey`. -/
theorem findKey_mapSet (substr : String) :
    ∀ (kvs : List (String × JVal)) (tname : String) (data nd : JVal),
      findKey substr kvs = some (tname, data)
      → findKey substr (kvs.map (fun p => if p.1 == tname then (tname, nd) else p))
        = some (tname, nd) := by
  intro kvs
  induction kvs with
  | nil => intro tname data nd h; simp [findKey] at h
  | cons q rest ih =>
      intro tname data nd h
      obtain ⟨k0, v0⟩ := q
      rw [findKey] at h
      by_cases hc : substr ≠ "" ∧ strHasSubstr k0 substr
      · rw [if_pos hc] at h
        simp only [Option.some.injEq, Prod.mk.injEq] at h
        obtain ⟨rfl, rfl⟩ := h
        simp only [List.map_cons]
        rw [if_pos (show ((k0, v0).1 == k0) = true from by simp)]
        rw [findKey, if_pos hc]
      · rw [if_neg hc] at h
        obtain ⟨hs, hts, -⟩ := findKey_props substr rest tname data h
        have hne : (k0 == tname) = false := by
          simp only [beq_eq_false_iff_ne]
          rintro rfl
          exact hc ⟨hs, hts⟩
        simp only [List.map_cons]
        rw [if_neg (by simp [hne])]
        rw [findKey, if_neg hc]
        exact ih tname data nd h

/-- Running the write-back loop under the schema located by `findSchema`:
it succeeds, rewrites exactly that schema's `attributes`, and the new
attachment re-locates the updated schema. -/
theorem writeBack_of_findSchema (substr : String) :
    ∀ (ncp : List JVal) (kvs dkvs : List (String × JVal)) (tname : String)
      (attrsNew : JVal),
      findSchema substr ncp = some (kvs, tname, .obj dkvs)
      → ∃ r, writeBack tname attrsNew ncp = .ok r
          ∧ r.length = ncp.length
          ∧ (∃ pre post, ncp = pre ++ .obj kvs :: post
              ∧ r = pre
                ++ .obj (dictSet kvs tname (.obj (dictSet dkvs "attributes" attrsNew)))
                :: post)
          ∧ findSchema substr r
            = some (dictSet kvs tname (.obj (dictSet dkvs "attributes" attrsNew)), tname,
                .obj (dictSet dkvs "attributes" attrsNew)) := by
  intro ncp
  induction ncp with
  | nil => intro kvs dkvs tname attrsNew h; simp [findSchema] at h
  | cons x rest ih =>
      intro kvs dkvs tname attrsNew h
      cases x with
      | obj kvs0 =>
          simp only [findSchema] at h
          cases hk : findKey substr kvs0 with
          | some p =>
              obtain ⟨name, d⟩ := p
              rw [hk] at h
              dsimp only at h
              simp only [Option.some.injEq, Prod.mk.injEq] at h
              obtain ⟨rfl, rfl, rfl⟩ := h
              obtain ⟨-, -, hfind⟩ := findKey_props substr kvs0 name (.obj dkvs) hk
              have hany : (kvs0.any fun p => p.1 == name) = true := by
                simp only [List.any_eq_true]
                exact ⟨(name, .obj dkvs), List.mem_of_find?_eq_some hfind, by simp⟩
              have hpg : pyGet kvs0 name = .obj dkvs := by
                unfold pyGet pyGetD
                rw [hfind]
              refine ⟨JVal.obj (dictSet kvs0 name
                  (.obj (dictSet dkvs "attributes" attrsNew))) :: rest, ?_, ?_, ?_, ?_⟩
              · simp only [writeBack]
                rw [if_pos hany, hpg]
              · simp
              · exact ⟨[], rest, by simp, by simp⟩
              · have hds : dictSet kvs0 name (.obj (dictSet dkvs "attributes" attrsNew))
                    = kvs0.map (fun p =>
                        if p.1 == name
                        then (name, JVal.obj (dictSet dkvs "attributes" attrsNew)) else p) := by
                  unfold dictSet
                  rw [if_pos hany]
                simp only [findSchema]
                rw [hds, findKey_mapSet substr kvs0 name (.obj dkvs)
                  (.obj (dictSet dkvs "attributes" attrsNew)) hk]
          | none =>
              rw [hk] at h
              dsimp only at h
              obtain ⟨r, hw, hlen, ⟨pre, post, hsplit, hr⟩, hfs⟩ :=
                ih kvs dkvs tname attrsNew h
              obtain ⟨hs, hts, -⟩ := findKey_props substr kvs
                tname (.obj dkvs) (findSchema_findKey substr rest kvs tname (.obj dkvs) h)
              have hany : (kvs0.any fun p => p.1 == tname) = false := by
                rcases Bool.eq_false_or_eq_true (kvs0.any fun p => p.1 == tname)
                  with ht | ht
                · exfalso
                  obtain ⟨q, hq, hqt⟩ := List.any_eq_true.mp ht
                  have hq1 : q.1 = tname := by simpa using hqt
                  exact (findKey_none substr kvs0 hk q hq) ⟨hs, hq1 ▸ hts⟩
                · exact ht
              refine ⟨.obj kvs0 :: r, ?_, by simp [hlen], ⟨.obj kvs0 :: pre, post,
                by simp [hsplit], by simp [hr]⟩, ?_⟩
              · simp only [writeBack]
                rw [if_neg (by simp [hany]), hw]
                rfl
              · simp only [findSchema]
                rw [show findKey substr kvs0 = none from hk]
                exact hfs
      | null =>
          simp only [findSchema] at h
          obtain ⟨r, hw, hlen, ⟨pre, post, hsplit, hr⟩, hfs⟩ :=
            ih kvs dkvs tname attrsNew h
          exact ⟨.null :: r, by simp only [writeBack]; rw [hw]; rfl, by simp [hlen],
            ⟨.null :: pre, post, by simp [hsplit], by simp [hr]⟩,
            by simp only [findSchema]; exact hfs⟩
      | bool b =>
          simp only [findSchema] at h
          obtain ⟨r, hw, hlen, ⟨pre, post, hsplit, hr⟩, hfs⟩ :=
            ih kvs dkvs tname attrsNew h
          exact ⟨.bool b :: r, by simp only [writeBack]; rw [hw]; rfl, by simp [hlen],
            ⟨.bool b :: pre, post, by simp [hsplit], by simp [hr]⟩,
            by simp only [findSchema]; exact hfs⟩
      | int n =>
          simp only [findSchema] at h
          obtain ⟨r, hw, hlen, ⟨pre, post, hsplit, hr⟩, hfs⟩ :=
            ih kvs dkvs tname attrsNew h
          exact ⟨.int n :: r, by simp only [writeBack]; rw [hw]; rfl, by simp [hlen],
            ⟨.int n :: pre, post, by simp [hsplit], by simp [hr]⟩,
            by simp only [findSchema]; exact hfs⟩
      | str s =>
          simp only [findSchema] at h
          obtain ⟨r, hw, hlen, ⟨pre, post, hsplit, hr⟩, hfs⟩ :=
            ih kvs dkvs tname attrsNew h
          exact ⟨.str s :: r, by simp only [writeBack]; rw [hw]; rfl, by simp [hlen],
            ⟨.str s :: pre, post, by simp [hsplit], by simp [hr]⟩,
            by simp only [findSchema]; exact hfs⟩
      | arr xs =>
          simp only [findSchema] at h
          obtain ⟨r, hw, hlen, ⟨pre, post, hsplit, hr⟩, hfs⟩ :=
            ih kvs dkvs tname attrsNew h
          exact ⟨.arr xs :: r, by simp only [writeBack]; rw [hw]; rfl, by simp [hlen],
            ⟨.arr xs :: pre, post, by simp [hsplit], by simp [hr]⟩,
            by simp only [findSchema]; exact hfs⟩

/-- When the attributes write-back stores the value the schema already
holds, the attachment is unchanged. -/
theorem writeBack_self_of_findSchema (substr : String) (ncp : List JVal)
    (kvs dkvs : List (String × JVal)) (tname : String) (attrsNew : JVal)
    (h : findSchema substr ncp = some (kvs, tname, .obj dkvs))
    (hset : dictSet kvs tname (.obj (dictSet dkvs "attributes" attrsNew)) = kvs) :
    writeBack tname attrsNew ncp = .ok ncp := by
  obtain ⟨r, hw, -, ⟨pre, post, hsplit, hr⟩, -⟩ :=
    writeBack_of_findSchema substr ncp kvs dkvs tname attrsNew h
  rw [hw, hr, hset, ← hsplit]

/-- `get?` after `set` at the same, occupied position. -/
theorem get?_set_same {α : Type} : ∀ (l : List α) (i : Nat) (a b : α),
    l.get? i = some b → (l.set i a).get? i = some a := by
  intro l
  induction l with
  | nil => intro i a b h; simp at h
  | cons x xs ih =>
      intro i a b h
      cases i with
      | zero => rfl
      | succ j =>
          simp only [List.get?_cons_succ] at h
          simp only [List.set, List.get?_cons_succ]
          exact ih j a b h

/-- `get?` after `set` at another position. -/
theorem get?_set_ne {α : Type} : ∀ (l : List α) (i j : Nat) (a : α), i ≠ j
    → (l.set i a).get? j = l.get? j := by
  intro l
  induction l with
  | nil => intro i j a _; rfl
  | cons x xs ih =>
      intro i j a h
      cases i with
      | zero =>
          cases j with
          | zero => exact absurd rfl h
          | succ j2 => rfl
      | succ i2 =>
          cases j with
          | zero => rfl
          | succ j2 =>
              simp only [List.set, List.get?_cons_succ]
              exact ih i2 j2 a (fun he => h (by rw [he]))

/-- A `some` from `get?` bounds the index. -/
theorem get?_lt_length {α : Type} (l : List α) (i : Nat) (a : α) (h : l.get? i = some a) :
    i < l.length := by
  by_cases hlt : i < l.length
  · exact hlt
  · rw [List.get?_eq_none.mpr (Nat.le_of_not_lt hlt)] at h
    cases h

/-- The SET_IF_EMPTY update leaves the attribute's index key unchanged. -/
theorem attrKey_update (akvs : List (String × JVal)) (v lb : JVal) :
    attrKey (.obj (dictSet (dictSet akvs "value" v) "label" lb)) = attrKey (.obj akvs) := by
  simp only [attrKey]
  rw [pyGet_dictSet_ne (dictSet akvs "value" v) "label" "name" lb (by decide),
      pyGet_dictSet_ne akvs "value" "name" v (by decide)]

/-- The SET_IF_EMPTY update stores the new value. -/
theorem pyGetD_update_value (akvs : List (String × JVal)) (v lb d : JVal) :
    pyGetD (dictSet (dictSet akvs "value" v) "label" lb) "value" d = v := by
  rw [pyGetD_dictSet_ne (dictSet akvs "value" v) "label" "value" lb d (by decide),
      pyGetD_dictSet_same]

/-- The index key of a freshly appended attribute. -/
theorem newAttr_key (oe : String) (v lb : JVal) (hoe : oe ≠ "") :
    attrKey (.obj [("name", .str oe), ("value", v), ("label", lb)])
      = .ok (some (pyNormalize oe)) := by
  have h1 : pyGet [("name", JVal.str oe), ("value", v), ("label", lb)] "name"
      = .str oe := rfl
  simp only [attrKey, h1, pyTruthy]
  rw [if_pos (by simpa using hoe)]

/-- The stored value of a freshly appended attribute. -/
theorem newAttr_value (oe : String) (v lb d : JVal) :
    pyGetD [("name", JVal.str oe), ("value", v), ("label", lb)] "value" d = v := rfl

/-- Index of the one-item list holding a fresh attribute. -/
theorem buildAttrIndex_newAttr (oe : String) (v lb : JVal) (i : Nat) (hoe : oe ≠ "") :
    buildAttrIndex [.obj [("name", .str oe), ("value", v), ("label", lb)]] i
      = .ok [(pyNormalize oe, i)] := by
  rw [buildAttrIndex_cons, newAttr_key oe v lb hoe]
  rfl

/-- The index resolves the name to a dict attribute whose stored value is
non-blank: the state in which SET_IF_EMPTY skips the field. -/
def GoodAt (attrs : List JVal) (ixa : List (String × Nat)) (n : String) : Prop :=
  ∃ pos akvs, ixFind ixa n = some pos ∧ attrs.get? pos = some (.obj akvs)
    ∧ pyStrip (pyStr (pyGetD akvs "value" (.str ""))) ≠ ""

/-- When every instruction's attribute is already populated, the field
loop patches nothing. -/
theorem applyFields_skip (ix : List (String × Nat)) :
    ∀ (I : List PatchField) (attrs : List JVal) (names : List String),
      (∀ f ∈ I, GoodAt attrs ix (pyNormalize (FIELD_NAME_TO_OE f.fieldName)))
      → applyFields ix I attrs names = .ok (attrs, names) := by
  intro I
  induction I with
  | nil => intro attrs names _; rfl
  | cons f rest ih =>
      intro attrs names h
      obtain ⟨pos, akvs, hix, hget, hval⟩ := h f (List.mem_cons_self f rest)
      simp only [applyFields]
      rw [hix]
      dsimp only
      rw [hget]
      dsimp only
      rw [if_pos hval]
      exact ih attrs names (fun g hg => h g (List.mem_cons_of_mem f hg))

/-- Running the field loop on a valid index with non-blank values and
non-empty mapped names leaves every instruction's attribute populated in
the output (and preserves populated attributes). -/
theorem applyFields_good (ix : List (String × Nat)) :
    ∀ (I : List PatchField) (attrs : List JVal) (names : List String)
      (attrs2 : List JVal) (names2 : List String) (ixa : List (String × Nat)),
      applyFields ix I attrs names = .ok (attrs2, names2)
      → buildAttrIndex attrs 0 = .ok ixa
      → (∀ n pos, ixFind ix n = some pos →
            (∃ akvs, attrs.get? pos = some (.obj akvs)) ∧ ixFind ixa n = some pos)
      → (∀ f ∈ I, pyStrip (pyStr f.value) ≠ "" ∧ FIELD_NAME_TO_OE f.fieldName ≠ "")
      → ∃ ixa2, buildAttrIndex attrs2 0 = .ok ixa2
          ∧ (∀ n, GoodAt attrs ixa n → GoodAt attrs2 ixa2 n)
          ∧ (∀ f ∈ I, GoodAt attrs2 ixa2 (pyNormalize (FIELD_NAME_TO_OE f.fieldName))) := by
  intro I
  induction I with
  | nil =>
      intro attrs names attrs2 names2 ixa hrun hbi _ _
      simp only [applyFields, Except.ok.injEq, Prod.mk.injEq] at hrun
      obtain ⟨rfl, rfl⟩ := hrun
      exact ⟨ixa, hbi, fun n h => h, by simp⟩
  | cons f rest ih =>
      intro attrs names attrs2 names2 ixa hrun hbi hres hgood
      obtain ⟨hfv, hfn⟩ := hgood f (List.mem_cons_self f rest)
      have hgood' := fun g hg => hgood g (List.mem_cons_of_mem f hg)
      simp only [applyFields] at hrun
      cases hix : ixFind ix (pyNormalize (FIELD_NAME_TO_OE f.fieldName)) with
      | some pos =>
          rw [hix] at hrun
          dsimp only at hrun
          obtain ⟨⟨akvs, hget⟩, hixa⟩ :=
            hres (pyNormalize (FIELD_NAME_TO_OE f.fieldName)) pos hix
          rw [hget] at hrun
          dsimp only at hrun
          by_cases hval : pyStrip (pyStr (pyGetD akvs "value" (.str ""))) ≠ ""
          · rw [if_pos hval] at hrun
            obtain ⟨ixa2, hbi2, hpres, hrest⟩ :=
              ih attrs names attrs2 names2 ixa hrun hbi hres hgood'
            refine ⟨ixa2, hbi2, hpres, ?_⟩
            intro g hg
            rcases List.mem_cons.1 hg with rfl | hg'
            · exact hpres _ ⟨pos, akvs, hixa, hget, hval⟩
            · exact hrest g hg'
          · rw [if_neg hval] at hrun
            have hbi' : buildAttrIndex
                (attrs.set pos (.obj (dictSet (dictSet akvs "value" f.value) "label"
                  (f.label.getD f.value)))) 0 = .ok ixa := by
              rw [buildAttrIndex_set attrs pos 0 (.obj akvs)
                (.obj (dictSet (dictSet akvs "value" f.value) "label"
                  (f.label.getD f.value))) hget
                (attrKey_update akvs f.value (f.label.getD f.value))]
              exact hbi
            have hres' : ∀ n2 pos2, ixFind ix n2 = some pos2 →
                (∃ akvs2, (attrs.set pos (.obj (dictSet (dictSet akvs "value" f.value)
                    "label" (f.label.getD f.value)))).get? pos2 = some (.obj akvs2))
                ∧ ixFind ixa n2 = some pos2 := by
              intro n2 pos2 h2
              obtain ⟨⟨akvs2, hget2⟩, hixa2⟩ := hres n2 pos2 h2
              refine ⟨?_, hixa2⟩
              by_cases hpp : pos = pos2
              · subst hpp
                exact ⟨_, get?_set_same attrs pos _ _ hget⟩
              · exact ⟨akvs2, by rw [get?_set_ne attrs pos pos2 _ hpp]; exact hget2⟩
            obtain ⟨ixa2, hbi2, hpres, hrest⟩ :=
              ih (attrs.set pos (.obj (dictSet (dictSet akvs "value" f.value) "label"
                  (f.label.getD f.value)))) (names ++ [f.fieldName]) attrs2 names2 ixa
                hrun hbi' hres' hgood'
            refine ⟨ixa2, hbi2, ?_, ?_⟩
            · intro n2 hG
              obtain ⟨pos2, akvs2, hix2, hget2, hval2⟩ := hG
              apply hpres
              have hpp : pos ≠ pos2 := by
                rintro rfl
                rw [hget] at hget2
                simp only [Option.some.injEq, JVal.obj.injEq] at hget2
                subst hget2
                exact hval2 (not_ne_iff.mp hval)
              exact ⟨pos2, akvs2, hix2,
                by rw [get?_set_ne attrs pos pos2 _ hpp]; exact hget2, hval2⟩
            · intro g hg
              rcases List.mem_cons.1 hg with rfl | hg'
              · apply hpres
                refine ⟨pos, dictSet (dictSet akvs "value" g.value) "label"
                  (g.label.getD g.value), hixa, get?_set_same attrs pos _ _ hget, ?_⟩
                rw [pyGetD_update_value]
                exact hfv
              · exact hrest g hg'
      | none =>
          rw [hix] at hrun
          dsimp only at hrun
          have hbiApp : buildAttrIndex
              (attrs ++ [.obj [("name", .str (FIELD_NAME_TO_OE f.fieldName)),
                ("value", f.value), ("label", f.label.getD f.value)]]) 0
              = .ok (ixa ++ [(pyNormalize (FIELD_NAME_TO_OE f.fieldName),
                  attrs.length)]) := by
            rw [buildAttrIndex_append, hbi]
            simp only [Nat.zero_add]
            rw [buildAttrIndex_newAttr (FIELD_NAME_TO_OE f.fieldName) f.value
              (f.label.getD f.value) attrs.length hfn]
            rfl
          have hres' : ∀ n2 pos2, ixFind ix n2 = some pos2 →
              (∃ akvs2, (attrs ++ [JVal.obj [("name", .str (FIELD_NAME_TO_OE f.fieldName)),
                  ("value", f.value), ("label", f.label.getD f.value)]]).get? pos2
                = some (.obj akvs2))
              ∧ ixFind (ixa ++ [(pyNormalize (FIELD_NAME_TO_OE f.fieldName),
                  attrs.length)]) n2 = some pos2 := by
            intro n2 pos2 h2
            obtain ⟨⟨akvs2, hget2⟩, hixa2⟩ := hres n2 pos2 h2
            have hne : (pyNormalize (FIELD_NAME_TO_OE f.fieldName) == n2) = false := by
              simp only [beq_eq_false_iff_ne]
              rintro rfl
              rw [hix] at h2
              cases h2
            refine ⟨⟨akvs2, ?_⟩, ?_⟩
            · rw [List.get?_append (get?_lt_length attrs pos2 _ hget2)]
              exact hget2
            · rw [ixFind_append, ixFind_singleton, if_neg (by simp [hne])]
              exact hixa2
          obtain ⟨ixa2, hbi2, hpres, hrest⟩ :=
            ih (attrs ++ [.obj [("name", .str (FIELD_NAME_TO_OE f.fieldName)),
                ("value", f.value), ("label", f.label.getD f.value)]])
              (names ++ [f.fieldName]) attrs2 names2
              (ixa ++ [(pyNormalize (FIELD_NAME_TO_OE f.fieldName), attrs.length)])
              hrun hbiApp hres' hgood'
          refine ⟨ixa2, hbi2, ?_, ?_⟩
          · intro n2 hG
            obtain ⟨pos2, akvs2, hix2, hget2, hval2⟩ := hG
            apply hpres
            rcases Bool.eq_false_or_eq_true
              (pyNormalize (FIELD_NAME_TO_OE f.fieldName) == n2) with heq | hne
            · have hn2 : n2 = pyNormalize (FIELD_NAME_TO_OE f.fieldName) :=
                (by simpa using heq : pyNormalize (FIELD_NAME_TO_OE f.fieldName) = n2).symm
              subst hn2
              refine ⟨attrs.length, [("name", .str (FIELD_NAME_TO_OE f.fieldName)),
                ("value", f.value), ("label", f.label.getD f.value)], ?_, ?_, ?_⟩
              · rw [ixFind_append, ixFind_singleton, if_pos (by simp)]
              · exact List.get?_concat_length attrs _
              · rw [newAttr_value]
                exact hfv
            · refine ⟨pos2, akvs2, ?_, ?_, hval2⟩
              · rw [ixFind_append, ixFind_singleton, if_neg (by simp [hne])]
                exact hix2
              · rw [List.get?_append (get?_lt_length attrs pos2 _ hget2)]
                exact hget2
          · intro g hg
            rcases List.mem_cons.1 hg with rfl | hg'
            · apply hpres
              refine ⟨attrs.length, [("name", .str (FIELD_NAME_TO_OE g.fieldName)),
                ("value", g.value), ("label", g.label.getD g.value)], ?_, ?_, ?_⟩
              · rw [ixFind_append, ixFind_singleton, if_pos (by simp)]
              · exact List.get?_concat_length attrs _
              · rw [newAttr_value]
                exact hfv
            · exact hrest g hg'

/-- A contained key's first entry pairs it with its `get` value. -/
theorem find?_contains_getD (kvs : List (String × JVal)) (k : String) (d : JVal)
    (hc : (kvs.map Prod.fst).contains k = true) :
    List.find? (fun p => p.1 == k) kvs = some (k, pyGetD kvs k d) := by
  induction kvs with
  | nil => simp at hc
  | cons q rest ih =>
      obtain ⟨k0, v0⟩ := q
      by_cases he : k0 = k
      · subst he
        rw [List.find?_cons]
        simp only [beq_self_eq_true]
        unfold pyGetD
        rw [List.find?_cons]
        simp only [beq_self_eq_true]
      · simp only [List.map_cons, List.contains_cons, Bool.or_eq_true] at hc
        have hkk0 : (k == k0) = false := by
          simp only [beq_eq_false_iff_ne]
          exact fun hx => he hx.symm
        have hk0k : (k0 == k) = false := by simp [he]
        rcases hc with hc1 | hc2
        · rw [hkk0] at hc1; cases hc1
        · rw [List.find?_cons]
          simp only [hk0k]
          have hgd : pyGetD ((k0, v0) :: rest) k d = pyGetD rest k d := by
            unfold pyGetD
            rw [List.find?_cons]
            simp only [hk0k]
          rw [hgd]
          exact ih hc2

/-- When `get(k, default)` is not the default, the key's entry exists. -/
theorem find?_of_getD_ne (kvs : List (String × JVal)) (k : String) (d v : JVal)
    (h : pyGetD kvs k d = v) (hne : v ≠ d) :
    List.find? (fun p => p.1 == k) kvs = some (k, v) := by
  unfold pyGetD at h
  cases hf : List.find? (fun p => p.1 == k) kvs with
  | none =>
      rw [hf] at h
      dsimp only at h
      exact absurd h.symm hne
  | some q =>
      rw [hf] at h
      dsimp only at h
      have hq1 : q.1 = k := by simpa using List.find?_some hf
      obtain ⟨q1, q2⟩ := q
      simp only at h hq1
      rw [hq1, h]

/-- The write-back of the unmodified attributes value is the identity,
under the benign dict conditions. -/
theorem benign_writeBack (substr : String) (ncp : List JVal)
    (kvs dkvs : List (String × JVal)) (tname : String) (av : JVal)
    (hfs : findSchema substr ncp = some (kvs, tname, .obj dkvs))
    (hku : keysUnique (kvs.map Prod.fst) = true)
    (hdu : keysUnique (dkvs.map Prod.fst) = true)
    (hc : (dkvs.map Prod.fst).contains "attributes" = true)
    (hav : pyGetD dkvs "attributes" (.arr []) = av) :
    writeBack tname av ncp = .ok ncp := by
  have hfa : List.find? (fun p => p.1 == "attributes") dkvs = some ("attributes", av) := by
    have hx := find?_contains_getD dkvs "attributes" (.arr []) hc
    rw [hav] at hx
    exact hx
  have hds1 : dictSet dkvs "attributes" av = dkvs := dictSet_self dkvs "attributes" av hdu hfa
  have hkey := findSchema_findKey substr ncp kvs tname (.obj dkvs) hfs
  obtain ⟨-, -, hfindk⟩ := findKey_props substr kvs tname (.obj dkvs) hkey
  have hset : dictSet kvs tname (.obj (dictSet dkvs "attributes" av)) = kvs := by
    rw [hds1]
    exact dictSet_self kvs tname (.obj dkvs) hku hfindk
  exact writeBack_self_of_findSchema substr ncp kvs dkvs tname av hfs hset

/-- The conditions under which an empty patch is exactly the identity:
unique keys (true of any real JSON dict) and an `attributes` key present
on the located target schema. -/
def emptyPatchBenign (x : List (String × JVal)) (st : String) : Bool :=
  match pyGetD x "NonCommercialProduct" (.arr []) with
  | .arr (h :: t) =>
      match findSchema (OE_SCHEMA_MAPPING st) (h :: t) with
      | none => true
      | some (kvs, _, data) =>
          match data with
          | .obj dkvs =>
              keysUnique (x.map Prod.fst)
              && keysUnique (kvs.map Prod.fst)
              && keysUnique (dkvs.map Prod.fst)
              && (dkvs.map Prod.fst).contains "attributes"
          | _ => true
  | _ => true

/-- Empty patch: the patched-field list is always empty, and under the
benign dict conditions the attachment is returned unchanged. -/
theorem C8_emptyPatch (x : List (String × JVal)) (st : String)
    (y : List (String × JVal)) (fs : List String)
    (h : patch_oe_json x [] st = .ok (y, fs)) :
    fs = [] ∧ (emptyPatchBenign x st = true → y = x) := by
  unfold patch_oe_json at h
  cases hget : pyGetD x "NonCommercialProduct" (.arr []) with
  | null =>
      rw [hget] at h
      dsimp only at h
      simp only [Except.ok.injEq, Prod.mk.injEq] at h
      obtain ⟨rfl, rfl⟩ := h
      exact ⟨rfl, fun _ => rfl⟩
  | bool b =>
      rw [hget] at h
      dsimp only at h
      simp only [Except.ok.injEq, Prod.mk.injEq] at h
      obtain ⟨rfl, rfl⟩ := h
      exact ⟨rfl, fun _ => rfl⟩
  | int n =>
      rw [hget] at h
      dsimp only at h
      simp only [Except.ok.injEq, Prod.mk.injEq] at h
      obtain ⟨rfl, rfl⟩ := h
      exact ⟨rfl, fun _ => rfl⟩
  | str s =>
      rw [hget] at h
      dsimp only at h
      simp only [Except.ok.injEq, Prod.mk.injEq] at h
      obtain ⟨rfl, rfl⟩ := h
      exact ⟨rfl, fun _ => rfl⟩
  | obj kvs =>
      rw [hget] at h
      dsimp only at h
      simp only [Except.ok.injEq, Prod.mk.injEq] at h
      obtain ⟨rfl, rfl⟩ := h
      exact ⟨rfl, fun _ => rfl⟩
  | arr ncp =>
      cases ncp with
      | nil =>
          rw [hget] at h
          dsimp only at h
          simp only [Except.ok.injEq, Prod.mk.injEq] at h
          obtain ⟨rfl, rfl⟩ := h
          exact ⟨rfl, fun _ => rfl⟩
      | cons h0 t =>
          rw [hget] at h
          dsimp only at h
          cases hfs : findSchema (OE_SCHEMA_MAPPING st) (h0 :: t) with
          | none =>
              rw [hfs] at h
              dsimp only at h
              simp only [Except.ok.injEq, Prod.mk.injEq] at h
              obtain ⟨rfl, rfl⟩ := h
              exact ⟨rfl, fun _ => rfl⟩
          | some trip =>
              obtain ⟨kvs, tname, data⟩ := trip
              rw [hfs] at h
              dsimp only at h
              cases data with
              | null =>
                  dsimp only at h
                  simp only [Except.ok.injEq, Prod.mk.injEq] at h
                  obtain ⟨rfl, rfl⟩ := h
                  exact ⟨rfl, fun _ => rfl⟩
              | bool b =>
                  dsimp only at h
                  simp only [Except.ok.injEq, Prod.mk.injEq] at h
                  obtain ⟨rfl, rfl⟩ := h
                  exact ⟨rfl, fun _ => rfl⟩
              | int n =>
                  dsimp only at h
                  simp only [Except.ok.injEq, Prod.mk.injEq] at h
                  obtain ⟨rfl, rfl⟩ := h
                  exact ⟨rfl, fun _ => rfl⟩
              | str s =>
                  dsimp only at h
                  simp only [Except.ok.injEq, Prod.mk.injEq] at h
                  obtain ⟨rfl, rfl⟩ := h
                  exact ⟨rfl, fun _ => rfl⟩
              | arr zs =>
                  dsimp only at h
                  simp only [Except.ok.injEq, Prod.mk.injEq] at h
                  obtain ⟨rfl, rfl⟩ := h
                  exact ⟨rfl, fun _ => rfl⟩
              | obj dkvs =>
                  dsimp only at h
                  cases hattr : pyGetD dkvs "attributes" (.arr []) with
                  | null =>
                      rw [hattr] at h
                      dsimp only at h
                      exact Except.noConfusion h
                  | bool b =>
                      rw [hattr] at h
                      dsimp only at h
                      exact Except.noConfusion h
                  | int n =>
                      rw [hattr] at h
                      dsimp only at h
                      exact Except.noConfusion h
                  | arr l =>
                      rw [hattr] at h
                      dsimp only at h
                      cases hbi : buildAttrIndex l 0 with
                      | error e =>
                          rw [hbi] at h
                          simp only [Except.bind] at h
                          exact Except.noConfusion h
                      | ok ix =>
                          rw [hbi] at h
                          simp only [Except.bind, applyFields] at h
                          cases hwb : writeBack tname (.arr l) (h0 :: t) with
                          | error e =>
                              rw [hwb] at h
                              simp only [Except.map] at h
                              exact Except.noConfusion h
                          | ok ncpNew =>
                              rw [hwb] at h
                              simp only [Except.map, Except.ok.injEq, Prod.mk.injEq] at h
                              obtain ⟨hy, hfs2⟩ := h
                              refine ⟨hfs2.symm, ?_⟩
                              intro hben
                              unfold emptyPatchBenign at hben
                              rw [hget] at hben
                              dsimp only at hben
                              rw [hfs] at hben
                              dsimp only at hben
                              simp only [Bool.and_eq_true] at hben
                              obtain ⟨⟨⟨hxu, hku⟩, hdu⟩, hcat⟩ := hben
                              have hws := benign_writeBack (OE_SCHEMA_MAPPING st) (h0 :: t)
                                kvs dkvs tname (.arr l) hfs hku hdu hcat hattr
                              rw [hws] at hwb
                              obtain rfl := Except.ok.inj hwb
                              rw [← hy]
                              have hfx : List.find? (fun p => p.1 == "NonCommercialProduct") x
                                  = some ("NonCommercialProduct", .arr (h0 :: t)) :=
                                find?_of_getD_ne x "NonCommercialProduct" (.arr [])
                                  (.arr (h0 :: t)) hget (by simp)
                              exact dictSet_self x "NonCommercialProduct" (.arr (h0 :: t)) hxu hfx
                  | str s =>
                      rw [hattr] at h
                      dsimp only at h
                      rw [if_pos (show (List.isEmpty ([] : List PatchField)) = true from rfl)] at h
                      cases hwb : writeBack tname (.str s) (h0 :: t) with
                      | error e =>
                          rw [hwb] at h
                          simp only [Except.map] at h
                          exact Except.noConfusion h
                      | ok ncpNew =>
                          rw [hwb] at h
                          simp only [Except.map, Except.ok.injEq, Prod.mk.injEq] at h
                          obtain ⟨hy, hfs2⟩ := h
                          refine ⟨hfs2.symm, ?_⟩
                          intro hben
                          unfold emptyPatchBenign at hben
                          rw [hget] at hben
                          dsimp only at hben
                          rw [hfs] at hben
                          dsimp only at hben
                          simp only [Bool.and_eq_true] at hben
                          obtain ⟨⟨⟨hxu, hku⟩, hdu⟩, hcat⟩ := hben
                          have hws := benign_writeBack (OE_SCHEMA_MAPPING st) (h0 :: t)
                            kvs dkvs tname (.str s) hfs hku hdu hcat hattr
                          rw [hws] at hwb
                          obtain rfl := Except.ok.inj hwb
                          rw [← hy]
                          have hfx : List.find? (fun p => p.1 == "NonCommercialProduct") x
                              = some ("NonCommercialProduct", .arr (h0 :: t)) :=
                            find?_of_getD_ne x "NonCommercialProduct" (.arr [])
                              (.arr (h0 :: t)) hget (by simp)
                          exact dictSet_self x "NonCommercialProduct" (.arr (h0 :: t)) hxu hfx
                  | obj okvs =>
                      rw [hattr] at h
                      dsimp only at h
                      rw [if_pos (show (List.isEmpty ([] : List PatchField)) = true from rfl)] at h
                      cases hwb : writeBack tname (.obj okvs) (h0 :: t) with
                      | error e =>
                          rw [hwb] at h
                          simp only [Except.map] at h
                          exact Except.noConfusion h
                      | ok ncpNew =>
                          rw [hwb] at h
                          simp only [Except.map, Except.ok.injEq, Prod.mk.injEq] at h
                          obtain ⟨hy, hfs2⟩ := h
                          refine ⟨hfs2.symm, ?_⟩
                          intro hben
                          unfold emptyPatchBenign at hben
                          rw [hget] at hben
                          dsimp only at hben
                          rw [hfs] at hben
                          dsimp only at hben
                          simp only [Bool.and_eq_true] at hben
                          obtain ⟨⟨⟨hxu, hku⟩, hdu⟩, hcat⟩ := hben
                          have hws := benign_writeBack (OE_SCHEMA_MAPPING st) (h0 :: t)
                            kvs dkvs tname (.obj okvs) hfs hku hdu hcat hattr
                          rw [hws] at hwb
                          obtain rfl := Except.ok.inj hwb
                          rw [← hy]
                          have hfx : List.find? (fun p => p.1 == "NonCommercialProduct") x
                              = some ("NonCommercialProduct", .arr (h0 :: t)) :=
                            find?_of_getD_ne x "NonCommercialProduct" (.arr [])
                              (.arr (h0 :: t)) hget (by simp)
                          exact dictSet_self x "NonCommercialProduct" (.arr (h0 :: t)) hxu hfx

/-- Second application: when every instruction has a non-blank value and
a non-empty mapped OE name, re-applying the instructions to a
successfully patched attachment patches nothing. -/
theorem C8_secondRun (x : List (String × JVal)) (I : List PatchField) (st : String)
    (y : List (String × JVal)) (fs : List String)
    (h : patch_oe_json x I st = .ok (y, fs))
    (hgood : ∀ f ∈ I, pyStrip (pyStr f.value) ≠ "" ∧ FIELD_NAME_TO_OE f.fieldName ≠ "") :
    ∃ yy, patch_oe_json y I st = .ok (yy, []) := by
  unfold patch_oe_json at h
  cases hget : pyGetD x "NonCommercialProduct" (.arr []) with
  | null =>
      rw [hget] at h
      dsimp only at h
      simp only [Except.ok.injEq, Prod.mk.injEq] at h
      obtain ⟨rfl, rfl⟩ := h
      refine ⟨x, ?_⟩
      unfold patch_oe_json
      rw [hget]
  | bool b =>
      rw [hget] at h
      dsimp only at h
      simp only [Except.ok.injEq, Prod.mk.injEq] at h
      obtain ⟨rfl, rfl⟩ := h
      refine ⟨x, ?_⟩
      unfold patch_oe_json
      rw [hget]
  | int n =>
      rw [hget] at h
      dsimp only at h
      simp only [Except.ok.injEq, Prod.mk.injEq] at h
      obtain ⟨rfl, rfl⟩ := h
      refine ⟨x, ?_⟩
      unfold patch_oe_json
      rw [hget]
  | str s =>
      rw [hget] at h
      dsimp only at h
      simp only [Except.ok.injEq, Prod.mk.injEq] at h
      obtain ⟨rfl, rfl⟩ := h
      refine ⟨x, ?_⟩
      unfold patch_oe_json
      rw [hget]
  | obj kvs =>
      rw [hget] at h
      dsimp only at h
      simp only [Except.ok.injEq, Prod.mk.injEq] at h
      obtain ⟨rfl, rfl⟩ := h
      refine ⟨x, ?_⟩
      unfold patch_oe_json
      rw [hget]
  | arr ncp =>
      cases ncp with
      | nil =>
          rw [hget] at h
          dsimp only at h
          simp only [Except.ok.injEq, Prod.mk.injEq] at h
          obtain ⟨rfl, rfl⟩ := h
          refine ⟨x, ?_⟩
          unfold patch_oe_json
          rw [hget]
      | cons h0 t =>
          rw [hget] at h
          dsimp only at h
          cases hfs : findSchema (OE_SCHEMA_MAPPING st) (h0 :: t) with
          | none =>
              rw [hfs] at h
              dsimp only at h
              simp only [Except.ok.injEq, Prod.mk.injEq] at h
              obtain ⟨rfl, rfl⟩ := h
              refine ⟨x, ?_⟩
              unfold patch_oe_json
              rw [hget]
              dsimp only
              rw [hfs]
          | some trip =>
              obtain ⟨kvs, tname, data⟩ := trip
              rw [hfs] at h
              dsimp only at h
              cases data with
              | null =>
                  dsimp only at h
                  simp only [Except.ok.injEq, Prod.mk.injEq] at h
                  obtain ⟨rfl, rfl⟩ := h
                  refine ⟨x, ?_⟩
                  unfold patch_oe_json
                  rw [hget]
                  dsimp only
                  rw [hfs]
              | bool b =>
                  dsimp only at h
                  simp only [Except.ok.injEq, Prod.mk.injEq] at h
                  obtain ⟨rfl, rfl⟩ := h
                  refine ⟨x, ?_⟩
                  unfold patch_oe_json
                  rw [hget]
                  dsimp only
                  rw [hfs]
              | int n =>
                  dsimp only at h
                  simp only [Except.ok.injEq, Prod.mk.injEq] at h
                  obtain ⟨rfl, rfl⟩ := h
                  refine ⟨x, ?_⟩
                  unfold patch_oe_json
                  rw [hget]
                  dsimp only
                  rw [hfs]
              | str s =>
                  dsimp only at h
                  simp only [Except.ok.injEq, Prod.mk.injEq] at h
                  obtain ⟨rfl, rfl⟩ := h
                  refine ⟨x, ?_⟩
                  unfold patch_oe_json
                  rw [hget]
                  dsimp only
                  rw [hfs]
              | arr zs =>
                  dsimp only at h
                  simp only [Except.ok.injEq, Prod.mk.injEq] at h
                  obtain ⟨rfl, rfl⟩ := h
                  refine ⟨x, ?_⟩
                  unfold patch_oe_json
                  rw [hget]
                  dsimp only
                  rw [hfs]
              | obj dkvs =>
                  dsimp only at h
                  cases hattr : pyGetD dkvs "attributes" (.arr []) with
                  | null =>
                      rw [hattr] at h
                      dsimp only at h
                      exact Except.noConfusion h
                  | bool b =>
                      rw [hattr] at h
                      dsimp only at h
                      exact Except.noConfusion h
                  | int n =>
                      rw [hattr] at h
                      dsimp only at h
                      exact Except.noConfusion h
                  | arr l =>
                      rw [hattr] at h
                      dsimp only at h
                      cases hbi : buildAttrIndex l 0 with
                      | error e =>
                          rw [hbi] at h
                          simp only [Except.bind] at h
                          exact Except.noConfusion h
                      | ok ix =>
                          rw [hbi] at h
                          simp only [Except.bind] at h
                          cases hap : applyFields ix I l [] with
                          | error e =>
                              rw [hap] at h
                              simp only [Except.bind] at h
                              exact Except.noConfusion h
                          | ok res =>
                              obtain ⟨l2, ns⟩ := res
                              rw [hap] at h
                              simp only [Except.bind] at h
                              cases hwb : writeBack tname (.arr l2) (h0 :: t) with
                              | error e =>
                                  rw [hwb] at h
                                  simp only [Except.map] at h
                                  exact Except.noConfusion h
                              | ok ncpNew =>
                                  rw [hwb] at h
                                  simp only [Except.map, Except.ok.injEq, Prod.mk.injEq] at h
                                  obtain ⟨hy, -⟩ := h
                                  obtain ⟨r, hwr, hlen, -, hfsN⟩ :=
                                    writeBack_of_findSchema (OE_SCHEMA_MAPPING st) (h0 :: t)
                                      kvs dkvs tname (.arr l2) hfs
                                  rw [hwb] at hwr
                                  obtain rfl := Except.ok.inj hwr
                                  have hvalid : ∀ n pos, ixFind ix n = some pos →
                                      (∃ akvs, l.get? pos = some (.obj akvs))
                                      ∧ ixFind ix n = some pos := by
                                    intro n pos hp
                                    refine ⟨?_, hp⟩
                                    obtain ⟨hle, akvs, hg⟩ := buildAttrIndex_valid l 0 ix hbi
                                      n pos (ixFind_mem ix n pos hp)
                                    exact ⟨akvs, by simpa using hg⟩
                                  obtain ⟨ixa2, hbi2, -, hrest⟩ :=
                                    applyFields_good ix I l [] l2 ns ix hap hbi hvalid hgood
                                  subst hy
                                  cases ncpNew with
                                  | nil => simp at hlen
                                  | cons z0 zt =>
                                      obtain ⟨r2, hwr2, -, -, -⟩ :=
                                        writeBack_of_findSchema (OE_SCHEMA_MAPPING st)
                                          (z0 :: zt) (dictSet kvs tname
                                            (.obj (dictSet dkvs "attributes" (.arr l2))))
                                          (dictSet dkvs "attributes" (.arr l2)) tname
                                          (.arr l2) hfsN
                                      apply Exists.intro
                                      unfold patch_oe_json
                                      rw [pyGetD_dictSet_same]
                                      dsimp only
                                      rw [hfsN]
                                      dsimp only
                                      rw [pyGetD_dictSet_same]
                                      dsimp only
                                      rw [hbi2]
                                      simp only [Except.bind]
                                      rw [applyFields_skip ixa2 I l2 [] hrest]
                                      simp only [Except.bind]
                                      rw [hwr2]
                                      simp only [Except.map]
                                      rfl
                  | str s =>
                      rw [hattr] at h
                      dsimp only at h
                      cases I with
                      | cons f0 It =>
                          rw [if_neg (by simp)] at h
                          exact Except.noConfusion h
                      | nil =>
                          rw [if_pos (show (List.isEmpty ([] : List PatchField)) = true
                            from rfl)] at h
                          cases hwb : writeBack tname (.str s) (h0 :: t) with
                          | error e =>
                              rw [hwb] at h
                              simp only [Except.map] at h
                              exact Except.noConfusion h
                          | ok ncpNew =>
                              rw [hwb] at h
                              simp only [Except.map, Except.ok.injEq, Prod.mk.injEq] at h
                              obtain ⟨hy, -⟩ := h
                              obtain ⟨r, hwr, hlen, -, hfsN⟩ :=
                                writeBack_of_findSchema (OE_SCHEMA_MAPPING st) (h0 :: t)
                                  kvs dkvs tname (.str s) hfs
                              rw [hwb] at hwr
                              obtain rfl := Except.ok.inj hwr
                              subst hy
                              cases ncpNew with
                              | nil => simp at hlen
                              | cons z0 zt =>
                                  obtain ⟨r2, hwr2, -, -, -⟩ :=
                                    writeBack_of_findSchema (OE_SCHEMA_MAPPING st)
                                      (z0 :: zt) (dictSet kvs tname
                                        (.obj (dictSet dkvs "attributes" (.str s))))
                                      (dictSet dkvs "attributes" (.str s)) tname
                                      (.str s) hfsN
                                  apply Exists.intro
                                  unfold patch_oe_json
                                  rw [pyGetD_dictSet_same]
                                  dsimp only
                                  rw [hfsN]
                                  dsimp only
                                  rw [pyGetD_dictSet_same]
                                  dsimp only
                                  rw [if_pos (show (List.isEmpty ([] : List PatchField))
                                    = true from rfl)]
                                  rw [hwr2]
                                  simp only [Except.map]
                                  rfl
                  | obj okvs =>
                      rw [hattr] at h
                      dsimp only at h
                      cases I with
                      | cons f0 It =>
                          rw [if_neg (by simp)] at h
                          exact Except.noConfusion h
                      | nil =>
                          rw [if_pos (show (List.isEmpty ([] : List PatchField)) = true
                            from rfl)] at h
                          cases hwb : writeBack tname (.obj okvs) (h0 :: t) with
                          | error e =>
                              rw [hwb] at h
                              simp only [Except.map] at h
                              exact Except.noConfusion h
                          | ok ncpNew =>
                              rw [hwb] at h
                              simp only [Except.map, Except.ok.injEq, Prod.mk.injEq] at h
                              obtain ⟨hy, -⟩ := h
                              obtain ⟨r, hwr, hlen, -, hfsN⟩ :=
                                writeBack_of_findSchema (OE_SCHEMA_MAPPING st) (h0 :: t)
                                  kvs dkvs tname (.obj okvs) hfs
                              rw [hwb] at hwr
                              obtain rfl := Except.ok.inj hwr
                              subst hy
                              cases ncpNew with
                              | nil => simp at hlen
                              | cons z0 zt =>
                                  obtain ⟨r2, hwr2, -, -, -⟩ :=
                                    writeBack_of_findSchema (OE_SCHEMA_MAPPING st)
                                      (z0 :: zt) (dictSet kvs tname
                                        (.obj (dictSet dkvs "attributes" (.obj okvs))))
                                      (dictSet dkvs "attributes" (.obj okvs)) tname
                                      (.obj okvs) hfsN
                                  apply Exists.intro
                                  unfold patch_oe_json
                                  rw [pyGetD_dictSet_same]
                                  dsimp only
                                  rw [hfsN]
                                  dsimp only
                                  rw [pyGetD_dictSet_same]
                                  dsimp only
                                  rw [if_pos (show (List.isEmpty ([] : List PatchField))
                                    = true from rfl)]
                                  rw [hwr2]
                                  simp only [Except.map]
                                  rfl

/-- C8 (amended).  For `patch_oe_json` (the code's `apply_patch`):
(1) an empty instruction list always yields an empty patched-field list,
and returns the attachment unchanged provided the attachment's dicts
have unique keys and the located target schema already has an
`attributes` key (otherwise an empty attributes list is materialised,
per the counterexample); (2) a second application of the same
instruction list to the output of a successful application patches
nothing, provided every instruction's value is non-blank after strip and
its mapped OE attribute name is non-empty (the counterexample shows a
blank value is re-patched). -/
theorem C8_patch_idempotent :
    (∀ (x : List (String × JVal)) (st : String) (y : List (String × JVal))
        (fs : List String),
      patch_oe_json x [] st = .ok (y, fs)
      → fs = [] ∧ (emptyPatchBenign x st = true → y = x))
    ∧ (∀ (x : List (String × JVal)) (I : List PatchField) (st : String)
        (y : List (String × JVal)) (fs : List String),
      patch_oe_json x I st = .ok (y, fs)
      → (∀ f ∈ I, pyStrip (pyStr f.value) ≠ "" ∧ FIELD_NAME_TO_OE f.fieldName ≠ "")
      → ∃ yy, patch_oe_json y I st = .ok (yy, [])) :=
  ⟨C8_emptyPatch, C8_secondRun⟩

/-- Witness for C8 at concrete attachments: an empty patch on a benign
attachment, and a second application after a real SET_IF_EMPTY patch. -/
theorem C8_patch_idempotent_witness :
    (([] : List String) = []
      ∧ (emptyPatchBenign
          [("NonCommercialProduct",
            .arr [.obj [("Voice OE", .obj [("attributes", .arr [])])]])] "Voice" = true
        → ([("NonCommercialProduct",
            .arr [.obj [("Voice OE", .obj [("attributes", .arr [])])]])]
            : List (String × JVal))
          = [("NonCommercialProduct",
            .arr [.obj [("Voice OE", .obj [("attributes", .arr [])])]])]))
    ∧ ∃ yy, patch_oe_json
        [("NonCommercialProduct",
          .arr [.obj [("Voice OE", .obj [("attributes",
            .arr [.obj [("name", .str "PIC Email"), ("value", .str "a@b"),
                        ("label", .str "a@b")]])])]])]
        [⟨"PICEmail", .str "a@b", none⟩] "Voice"
        = .ok (yy, []) := by
  constructor
  · exact C8_patch_idempotent.1
      [("NonCommercialProduct",
        .arr [.obj [("Voice OE", .obj [("attributes", .arr [])])]])] "Voice"
      [("NonCommercialProduct",
        .arr [.obj [("Voice OE", .obj [("attributes", .arr [])])]])] []
      (by decide)
  · exact C8_patch_idempotent.2
      [("NonCommercialProduct",
        .arr [.obj [("Voice OE", .obj [("attributes",
          .arr [.obj [("name", .str "PIC Email"), ("value", .str "")]])])]])]
      [⟨"PICEmail", .str "a@b", none⟩] "Voice"
      [("NonCommercialProduct",
        .arr [.obj [("Voice OE", .obj [("attributes",
          .arr [.obj [("name", .str "PIC Email"), ("value", .str "a@b"),
                      ("label", .str "a@b")]])])]])]
      ["PICEmail"]
      (by decide) (by decide)
